import Mathlib

/-!
Verification development for the spatial road-matching subsystem of the
FGCU traffic repository.

Shallow embedding of the two parallel implementations:
* `RTree` — src/netlify-deploy/src/data/roadIndex.ts (RBush bounding-box tree)
* `Grid`  — src/netlify-deploy/src/trafficSystem.js (uniform spatial grid)
plus the PCI joiner (src/unnamed/part_002) and the signal manager
(src/netlify-deploy/src/trafficSystem.js).

Modelling conventions (documented per definition where relevant):
* JavaScript numbers are idealised as exact arithmetic: coordinates and all
  values produced without square roots live in `ℚ`; distances (which the
  source computes with `Math.sqrt`) live in `ℝ` via `Real.sqrt`.
* A JavaScript value that may be `undefined`, `null`, `NaN` or a number is
  embedded as the inductive `JNum` below.
* `Infinity`-seeded minimum loops (`let minDistance = Infinity; ... Math.min`)
  are embedded as an `Option`-valued minimum: `none` plays the role of
  `Infinity`, and `Infinity < x` is false for every finite `x`, which is
  exactly how a `none` distance behaves in the comparisons below.
* JavaScript `Map` objects are embedded as association lists in insertion
  order (`Map.set` replaces in place when the key exists, else appends,
  matching JS iteration-order semantics).
-/

/-- A JavaScript numeric slot: `undefined`, `null`, `NaN`, or a number. -/
inductive JNum where
  | undef : JNum
  | nullv : JNum
  | nan : JNum
  | num (q : ℚ) : JNum
deriving DecidableEq

/-- JS truthiness of an optional string: `undefined` and `""` are falsy. -/
def truthyStr (s : Option String) : Bool :=
  match s with
  | none => false
  | some str => !(str = "")

/-- Characters treated as whitespace by JS `parseInt`'s leading trim. -/
def isJsSpace (c : Char) : Bool :=
  c = ' ' || c = '\t' || c = '\n' || c = '\r'

/-- Numeric value of a list of decimal digit characters. -/
def digitsToNat : List Char → ℕ → ℕ
  | [], acc => acc
  | c :: cs, acc => digitsToNat cs (acc * 10 + (c.toNat - '0'.toNat))

/-- Embedding of JS `parseInt(s)` (radix 10): skip leading whitespace, read an
optional sign, then the maximal run of decimal digits; `NaN` when no digit is
read.  (Hexadecimal `0x` prefixes are not modelled; no OSM numeric tag in this
repository uses them.) -/
def parseIntJS (s : String) : JNum :=
  let cs := s.toList.dropWhile isJsSpace
  let core : List Char → Bool → JNum := fun body neg =>
    let digs := body.takeWhile Char.isDigit
    if digs.isEmpty then JNum.nan
    else if neg then JNum.num (-(digitsToNat digs 0 : ℚ))
    else JNum.num (digitsToNat digs 0 : ℚ)
  match cs with
  | '-' :: rest => core rest true
  | '+' :: rest => core rest false
  | rest => core rest false

/-- Embedding of `s.replace(/[^0-9]/g, '')`: keep only decimal digits. -/
def stripNonDigits (s : String) : String :=
  ⟨s.toList.filter Char.isDigit⟩

/-- One geometry point of an OSM way: `{lon, lat}`. -/
structure GeoPoint where
  lon : ℚ
  lat : ℚ
deriving DecidableEq

/-- The OSM tag fields read by the two implementations. -/
structure Tags where
  name : Option String := none
  ref : Option String := none
  highway : Option String := none
  lanes : Option String := none
  maxspeed : Option String := none
  surface : Option String := none
deriving DecidableEq

/-- An OSM element (way or node) as consumed by the loaders.  Ways carry
`geometry`; nodes carry `lon`/`lat`. -/
structure Element where
  type : String
  id : String
  tags : Option Tags := none
  geometry : Option (List GeoPoint) := none
  lon : ℚ := 0
  lat : ℚ := 0

/-- The raw payload handed to the bulk loaders (`osmData.elements`). -/
structure OSMData where
  elements : Option (List Element)

/-- The `metadata` bag attached to a road segment.  All keys ever written by
the source appear as fields; a field that a given code path does not write
stays at its default (`undefined`). -/
structure Metadata where
  lanes : JNum := JNum.undef
  maxspeed : JNum := JNum.undef
  surface : Option String := none
  pci : JNum := JNum.undef
  pciCondition : Option String := none
  pciLastInspection : Option String := none
  pciSurface : Option String := none
  pciDistance : Option ℚ := none
  pciSynthetic : Option Bool := none
  synthetic : Option Bool := none
deriving DecidableEq

/-- A road segment (`RoadSegment` in roadIndex.ts; the object literal built by
`fromOSMWay` in trafficSystem.js).  `cesiumPositions` is rendering-only state
and is not modelled.  `positions` is the flat `[lon, lat, lon, lat, ...]`
array of the source. -/
structure RoadSegment where
  id : String
  name : String
  kind : String
  positions : List ℚ
  bbox : ℚ × ℚ × ℚ × ℚ
  length : ℝ
  midpoint : ℚ × ℚ
  metadata : Option Metadata := none

/-- Traffic level enumeration. -/
inductive TrafficLevel where
  | HEAVY | MODERATE | LIGHT | MINIMAL
deriving DecidableEq

/-- Traffic metrics snapshot for one road. -/
structure TrafficMetrics where
  currentVolume : ℚ
  forecast1h : ℚ
  forecast4h : ℚ
  forecast24h : ℚ
  level : TrafficLevel
  lastUpdated : String
  signalCount : ℚ
deriving DecidableEq

/-- JS `Map.get`: first binding of the key, if any. -/
def mapGet {κ α : Type} [DecidableEq κ] (m : List (κ × α)) (k : κ) : Option α :=
  match m with
  | [] => none
  | (k', v) :: rest => if k = k' then some v else mapGet rest k

/-- JS `Map.set`: replace the binding in place when the key exists (JS keeps
the original insertion position), else append. -/
def mapSet {κ α : Type} [DecidableEq κ] (m : List (κ × α)) (k : κ) (v : α) :
    List (κ × α) :=
  match m with
  | [] => [(k, v)]
  | (k', v') :: rest =>
    if k = k' then (k, v) :: rest else (k', v') :: mapSet rest k v

/-! ## Geometry -/

/-- Consecutive coordinate quadruples `(x1, y1, x2, y2)` read by the loop
`for (let i = 0; i < positions.length - 2; i += 2)` over the flat
`[lon, lat, ...]` array (both implementations use the identical loop). -/
def segPairs : List ℚ → List (ℚ × ℚ × ℚ × ℚ)
  | x1 :: y1 :: rest =>
    match rest with
    | x2 :: y2 :: _ => (x1, y1, x2, y2) :: segPairs rest
    | _ => []
  | _ => []

/-- `pointToLineDistance` of roadIndex.ts (projection onto the segment,
parameter clamped by an if-chain, Euclidean distance to the clamped point). -/
noncomputable def pointToLineDistance
    (px py x1 y1 x2 y2 : ℚ) : ℝ :=
  let A := px - x1
  let B := py - y1
  let C := x2 - x1
  let D := y2 - y1
  let dot := A * C + B * D
  let lenSq := C * C + D * D
  if lenSq = 0 then
    Real.sqrt ((A * A + B * B : ℚ) : ℝ)
  else
    let param0 := dot / lenSq
    let param := if param0 < 0 then 0 else if param0 > 1 then 1 else param0
    let xx := x1 + param * C
    let yy := y1 + param * D
    let dx := px - xx
    let dy := py - yy
    Real.sqrt ((dx * dx + dy * dy : ℚ) : ℝ)

/-- `pointToLineDistance` of trafficSystem.js; identical except the clamp is
written `Math.max(0, Math.min(1, param))`. -/
noncomputable def pointToLineDistanceJS
    (px py x1 y1 x2 y2 : ℚ) : ℝ :=
  let A := px - x1
  let B := py - y1
  let C := x2 - x1
  let D := y2 - y1
  let dot := A * C + B * D
  let lenSq := C * C + D * D
  if lenSq = 0 then
    Real.sqrt ((A * A + B * B : ℚ) : ℝ)
  else
    let param := max 0 (min 1 (dot / lenSq))
    let xx := x1 + param * C
    let yy := y1 + param * D
    let dx := px - xx
    let dy := py - yy
    Real.sqrt ((dx * dx + dy * dy : ℚ) : ℝ)

/-- `distanceToRoad` (identical in both implementations): minimum of the
per-sub-segment distances over the polyline, converted to meters with the
111320 m/degree approximation.  The source seeds the minimum with `Infinity`;
here a road with no sub-segment yields `none` (and, like `Infinity`, a `none`
distance never wins a `<` comparison in the query loops below). -/
noncomputable def distanceToRoad (lon lat : ℚ) (road : RoadSegment) :
    Option ℝ :=
  match (segPairs road.positions).map
      (fun q => pointToLineDistance lon lat q.1 q.2.1 q.2.2.1 q.2.2.2) with
  | [] => none
  | d :: ds => some (ds.foldl min d * 111320)

/-- `Math.atan2(y, x)`, embedded as the argument of the complex number
`x + y·i` (the two agree on all of `ℝ²`, with the JS convention
`atan2(0, 0) = 0`). -/
noncomputable def jsAtan2 (y x : ℝ) : ℝ :=
  Complex.arg { re := x, im := y }

/-- One haversine step of the `length` loop in `fromOSMWay` (Earth radius
6 371 000 m). -/
noncomputable def haversineStep (lon1 lat1 lon2 lat2 : ℚ) : ℝ :=
  let dLat : ℝ := ((lat2 - lat1 : ℚ) : ℝ) * Real.pi / 180
  let dLon : ℝ := ((lon2 - lon1 : ℚ) : ℝ) * Real.pi / 180
  let a := Real.sin (dLat / 2) * Real.sin (dLat / 2) +
      Real.cos (((lat1 : ℝ)) * Real.pi / 180) *
        Real.cos (((lat2 : ℝ)) * Real.pi / 180) *
        Real.sin (dLon / 2) * Real.sin (dLon / 2)
  let c := 2 * jsAtan2 (Real.sqrt a) (Real.sqrt (1 - a))
  6371000 * c

/-- The `length` accumulation loop of `fromOSMWay`. -/
noncomputable def polyLength (positions : List ℚ) : ℝ :=
  (segPairs positions).foldl
    (fun acc q => acc + haversineStep q.1 q.2.1 q.2.2.1 q.2.2.2) 0

/-! ## Road segment construction (`fromOSMWay`, duplicated in both files) -/

/-- The `name` fallback chain: `tags.name || tags.ref ||
"Unnamed " + (tags.highway || "road")`. -/
def roadName (tags : Tags) : String :=
  if truthyStr tags.name then tags.name.getD ""
  else if truthyStr tags.ref then tags.ref.getD ""
  else "Unnamed " ++ (if truthyStr tags.highway then tags.highway.getD "" else "road")

/-- The `kind` field: `tags.highway || "unknown"`. -/
def roadKind (tags : Tags) : String :=
  if truthyStr tags.highway then tags.highway.getD "" else "unknown"

/-- `lanes: tags.lanes ? parseInt(tags.lanes) : undefined`. -/
def lanesField (tags : Tags) : JNum :=
  if truthyStr tags.lanes then parseIntJS (tags.lanes.getD "") else JNum.undef

/-- `maxspeed: tags.maxspeed ? parseInt(tags.maxspeed.replace(/[^0-9]/g, ''))
: undefined`. -/
def maxspeedField (tags : Tags) : JNum :=
  if truthyStr tags.maxspeed then parseIntJS (stripNonDigits (tags.maxspeed.getD ""))
  else JNum.undef

namespace RTree

/-- `RoadIndex.fromOSMWay` of roadIndex.ts.  Throws (`Except.error`) on fewer
than 2 geometry points.  The bbox scan seeds with `±Infinity` in the source;
with a guaranteed-nonempty geometry this equals folding `min`/`max` from the
first point's coordinates.  The metadata literal has no `pci` key, so `pci`
stays `undefined`. -/
noncomputable def fromOSMWay (way : Element) : Except String RoadSegment :=
  match way.geometry with
  | none => Except.error "Invalid OSM way geometry"
  | some geom =>
    match geom with
    | [] => Except.error "Invalid OSM way geometry"
    | [_] => Except.error "Invalid OSM way geometry"
    | p0 :: p1 :: rest =>
      let geom := p0 :: p1 :: rest
      let positions := geom.flatMap (fun pt => [pt.lon, pt.lat])
      let minLon := (geom.map GeoPoint.lon).foldl min p0.lon
      let minLat := (geom.map GeoPoint.lat).foldl min p0.lat
      let maxLon := (geom.map GeoPoint.lon).foldl max p0.lon
      let maxLat := (geom.map GeoPoint.lat).foldl max p0.lat
      let midIdx := positions.length / 4 * 2
      let tags := way.tags.getD {}
      Except.ok {
        id := "osm_way_" ++ way.id
        name := roadName tags
        kind := roadKind tags
        positions := positions
        bbox := (minLon, minLat, maxLon, maxLat)
        length := polyLength positions
        midpoint := (positions.getD midIdx 0, positions.getD (midIdx + 1) 0)
        metadata := some {
          lanes := lanesField tags
          maxspeed := maxspeedField tags
          surface := tags.surface } }

/-- An entry of the RBush spatial index: the road's bbox plus its id. -/
structure RTreeItem where
  minX : ℚ
  minY : ℚ
  maxX : ℚ
  maxY : ℚ
  roadId : String
deriving DecidableEq

/-- A search bbox handed to `spatialIndex.search`. -/
structure SearchBox where
  minX : ℚ
  minY : ℚ
  maxX : ℚ
  maxY : ℚ

/-- RBush's bbox-overlap test between a stored item and a search box. -/
def intersects (b : SearchBox) (it : RTreeItem) : Bool :=
  decide (it.minX ≤ b.maxX) && decide (it.minY ≤ b.maxY) &&
  decide (it.maxX ≥ b.minX) && decide (it.maxY ≥ b.minY)

/-- State of a `RoadIndex` (roadIndex.ts): the `roads` map, the RBush item
set, and the `trafficData` map.  The RBush tree is modelled by its item list
in insertion order; `search` returns exactly the items whose bboxes overlap
the query box (the tree only changes the enumeration order, which the
correctness theorems below are deliberately proved independent of). -/
structure State where
  roads : List (String × RoadSegment) := []
  items : List RTreeItem := []
  trafficData : List (String × TrafficMetrics) := []

/-- The freshly constructed index. -/
def emptyState : State := {}

/-- `addRoad`: `roads.set(id, segment)` plus `spatialIndex.insert(bbox item)`. -/
def addRoad (s : State) (seg : RoadSegment) : State :=
  { s with
    roads := mapSet s.roads seg.id seg
    items := s.items ++ [{ minX := seg.bbox.1, minY := seg.bbox.2.1,
                           maxX := seg.bbox.2.2.1, maxY := seg.bbox.2.2.2,
                           roadId := seg.id }] }

end RTree

/-- The candidate scan loop shared verbatim by both `findNearest`
implementations: iterate over the (possibly unresolvable) candidate roads,
skip `undefined` ones (`if (!road) continue`), keep the strictly closest road
seen so far, seeding `nearestDistance` with the query radius. -/
noncomputable def scanRoads (dist : RoadSegment → Option ℝ) :
    List (Option RoadSegment) → ℝ → Option RoadSegment → Option RoadSegment
  | [], _, acc => acc
  | none :: cs, best, acc => scanRoads dist cs best acc
  | some road :: cs, best, acc =>
    match dist road with
    | none => scanRoads dist cs best acc
    | some d =>
      if d < best then scanRoads dist cs d (some road)
      else scanRoads dist cs best acc

namespace RTree

/-- `findNearest(lon, lat, maxDistanceMeters)` of roadIndex.ts: convert the
radius to degrees (111320 m/degree), search the RBush with the expanded box,
return `null` when no candidate, else scan candidates for the strictly
closest road within the radius. -/
noncomputable def findNearest (s : State) (lon lat maxDistanceMeters : ℚ) :
    Option RoadSegment :=
  let maxDistanceDeg : ℚ := maxDistanceMeters / 111320
  let searchBbox : SearchBox :=
    { minX := lon - maxDistanceDeg, minY := lat - maxDistanceDeg,
      maxX := lon + maxDistanceDeg, maxY := lat + maxDistanceDeg }
  let candidates := s.items.filter (intersects searchBbox)
  if candidates.isEmpty then none
  else
    scanRoads (distanceToRoad lon lat)
      (candidates.map (fun c => mapGet s.roads c.roadId))
      ((maxDistanceMeters : ℝ)) none

/-- `getRoad(id)`: `roads.get(id) || null`. -/
def getRoad (s : State) (id : String) : Option RoadSegment :=
  mapGet s.roads id

/-- `getAllRoads()`: `Array.from(this.roads.values())` — a fresh array holding
the map's values in insertion order. -/
def getAllRoads (s : State) : List RoadSegment :=
  s.roads.map Prod.snd

/-- `setTrafficData(roadId, metrics)`: unconditional `trafficData.set`. -/
def setTrafficData (s : State) (roadId : String) (m : TrafficMetrics) : State :=
  { s with trafficData := mapSet s.trafficData roadId m }

/-- `getTrafficData(roadId)`: `trafficData.get(roadId) || null`. -/
def getTrafficData (s : State) (roadId : String) : Option TrafficMetrics :=
  mapGet s.trafficData roadId

/-- `getStats()`. -/
def getStats (s : State) : ℕ × ℕ × ℕ :=
  (s.roads.length, s.items.length, s.trafficData.length)

/-- Eligibility filter of the bulk-load loop:
`element.type === 'way' && element.tags?.highway && element.geometry`. -/
def eligibleWay (e : Element) : Bool :=
  decide (e.type = "way") &&
  (match e.tags with
   | none => false
   | some t => truthyStr t.highway) &&
  e.geometry.isSome

/-- `loadFromOSM(osmData)` of roadIndex.ts.  Throws on a missing `elements`
key; otherwise processes elements sequentially, skipping (with a warning,
collected here as the list of failing way ids) each way whose construction
throws.  The source computes `roadCount` but the method's promise resolves
with `undefined` — only the updated index and the warnings are observable in
the return value. -/
noncomputable def loadFromOSM (osmData : OSMData) (s : State) :
    Except String (State × List String) :=
  match osmData.elements with
  | none => Except.error "Invalid OSM data format"
  | some elements =>
    Except.ok (elements.foldl
      (fun (acc : State × List String) e =>
        if eligibleWay e then
          match fromOSMWay e with
          | Except.ok road => (addRoad acc.1 road, acc.2)
          | Except.error _ => (acc.1, acc.2 ++ [e.id])
        else acc)
      (s, []))

end RTree

namespace Grid

/-- `this.gridSize = 0.001` (degrees per cell). -/
def gridSize : ℚ := 1 / 1000

/-- `getGridKey(lon, lat)`.  The source builds the string
`gridX + "," + gridY` from the two floors; string formatting of integers is
injective, so the key is modelled by the integer pair itself. -/
def getGridKey (lon lat : ℚ) : ℤ × ℤ :=
  (⌊lon / gridSize⌋, ⌊lat / gridSize⌋)

/-- State of the grid `RoadIndex` (trafficSystem.js): `roads`, `trafficData`,
and `spatialGrid` (cell key → list of road ids in insertion order). -/
structure State where
  roads : List (String × RoadSegment) := []
  trafficData : List (String × TrafficMetrics) := []
  spatialGrid : List ((ℤ × ℤ) × List String) := []

/-- The freshly constructed index. -/
def emptyState : State := {}

/-- `addRoad(road)`: `roads.set`, then push the road id onto the grid cell of
the road's midpoint (creating the cell when absent). -/
def addRoad (s : State) (road : RoadSegment) : State :=
  let gridKey := getGridKey road.midpoint.1 road.midpoint.2
  let cell := (mapGet s.spatialGrid gridKey).getD []
  { s with
    roads := mapSet s.roads road.id road
    spatialGrid := mapSet s.spatialGrid gridKey (cell ++ [road.id]) }

/-- The loop offsets `-searchRadius .. searchRadius` with `searchRadius = 2`. -/
def offsets : List ℤ := [-2, -1, 0, 1, 2]

/-- The candidate collection loop of `findNearest`: scan the 5×5 ring of grid
cells around the query cell (in `dx`-major order, matching the nested loops),
pushing `this.roads.get(roadId)` — possibly `undefined` — for every id found. -/
def candidates (s : State) (lon lat : ℚ) : List (Option RoadSegment) :=
  let centerGridX := ⌊lon / gridSize⌋
  let centerGridY := ⌊lat / gridSize⌋
  offsets.flatMap (fun dx =>
    offsets.flatMap (fun dy =>
      ((mapGet s.spatialGrid (centerGridX + dx, centerGridY + dy)).getD []).map
        (fun roadId => mapGet s.roads roadId)))

/-- `distanceToRoad` of trafficSystem.js (see `distanceToRoad` for the
`Infinity` convention; the two sources' bodies are identical up to the clamp
spelling, compare `pointToLineDistanceJS_eq`). -/
noncomputable def distanceToRoadJS (lon lat : ℚ) (road : RoadSegment) :
    Option ℝ :=
  match (segPairs road.positions).map
      (fun q => pointToLineDistanceJS lon lat q.1 q.2.1 q.2.2.1 q.2.2.2) with
  | [] => none
  | d :: ds => some (ds.foldl min d * 111320)

/-- `findNearest(lon, lat, maxDistanceMeters)` of trafficSystem.js: collect
candidates from the cell ring, return `null` when none, else the strictly
closest candidate within the radius. -/
noncomputable def findNearest (s : State) (lon lat maxDistanceMeters : ℚ) :
    Option RoadSegment :=
  let cands := candidates s lon lat
  if cands.isEmpty then none
  else scanRoads (distanceToRoadJS lon lat) cands ((maxDistanceMeters : ℝ)) none

/-- `RoadIndex.fromOSMWay` of trafficSystem.js: same construction as the
roadIndex.ts version, except the metadata literal also sets `pci: null`
(`cesiumPositions: null` is rendering-only and not modelled). -/
noncomputable def fromOSMWay (way : Element) : Except String RoadSegment :=
  match way.geometry with
  | none => Except.error "Invalid OSM way geometry"
  | some geom =>
    match geom with
    | [] => Except.error "Invalid OSM way geometry"
    | [_] => Except.error "Invalid OSM way geometry"
    | p0 :: p1 :: rest =>
      let geom := p0 :: p1 :: rest
      let positions := geom.flatMap (fun pt => [pt.lon, pt.lat])
      let minLon := (geom.map GeoPoint.lon).foldl min p0.lon
      let minLat := (geom.map GeoPoint.lat).foldl min p0.lat
      let maxLon := (geom.map GeoPoint.lon).foldl max p0.lon
      let maxLat := (geom.map GeoPoint.lat).foldl max p0.lat
      let midIdx := positions.length / 4 * 2
      let tags := way.tags.getD {}
      Except.ok {
        id := "osm_way_" ++ way.id
        name := roadName tags
        kind := roadKind tags
        positions := positions
        bbox := (minLon, minLat, maxLon, maxLat)
        length := polyLength positions
        midpoint := (positions.getD midIdx 0, positions.getD (midIdx + 1) 0)
        metadata := some {
          lanes := lanesField tags
          maxspeed := maxspeedField tags
          surface := tags.surface
          pci := JNum.nullv } }

/-- `loadFromOSM(osmData)` of trafficSystem.js: same sequential skip-and-warn
loop as the roadIndex.ts version, but the method returns `roadCount`.  The
result is `(new state, roadCount, warned way ids)`. -/
noncomputable def loadFromOSM (osmData : OSMData) (s : State) :
    Except String (State × ℕ × List String) :=
  match osmData.elements with
  | none => Except.error "Invalid OSM data format"
  | some elements =>
    Except.ok (elements.foldl
      (fun (acc : State × ℕ × List String) e =>
        if RTree.eligibleWay e then
          match fromOSMWay e with
          | Except.ok road => (addRoad acc.1 road, acc.2.1 + 1, acc.2.2)
          | Except.error _ => (acc.1, acc.2.1, acc.2.2 ++ [e.id])
        else acc)
      (s, 0, []))

/-- `getRoad(id)`: `roads.get(id)`. -/
def getRoad (s : State) (id : String) : Option RoadSegment :=
  mapGet s.roads id

/-- `getAllRoads()`: fresh array of the map's values. -/
def getAllRoads (s : State) : List RoadSegment :=
  s.roads.map Prod.snd

/-- `setTrafficData(roadId, metrics)`: unconditional `trafficData.set`. -/
def setTrafficData (s : State) (roadId : String) (m : TrafficMetrics) : State :=
  { s with trafficData := mapSet s.trafficData roadId m }

/-- `getTrafficData(roadId)`. -/
def getTrafficData (s : State) (roadId : String) : Option TrafficMetrics :=
  mapGet s.trafficData roadId

end Grid

/-! ## Signal manager (trafficSystem.js) -/

namespace Signals

/-- A traffic signal as stored in `this.signals` by `addSignal`.  The source
id is the string `signal_lon_lat`; number formatting is injective on the
pair, so the id is modelled by the coordinate pair.  The Cesium entity is
rendering-only state and is not modelled. -/
structure Signal where
  lon : ℚ
  lat : ℚ
  roadId : Option String
  roadName : String
deriving DecidableEq

/-- `addSignal(lon, lat, nearestRoad)`: the signal record pushed onto
`this.signals` (`roadId: nearestRoad ? nearestRoad.id : null`, same for the
name, which falls back to `"Unknown"`). -/
def mkSignal (lon lat : ℚ) (nearestRoad : Option RoadSegment) : Signal :=
  { lon := lon, lat := lat,
    roadId := nearestRoad.map RoadSegment.id,
    roadName := (nearestRoad.map RoadSegment.name).getD "Unknown" }

/-- Eligibility test of the signal loop:
`element.type === 'node' && element.tags?.highway === 'traffic_signals'`. -/
def eligibleSignal (e : Element) : Bool :=
  decide (e.type = "node") &&
  (match e.tags with
   | none => false
   | some t => decide (t.highway = some "traffic_signals"))

/-- `SignalManager.loadFromOSM(osmData)`: for each traffic-signal node, query
`roadIndex.findNearest(lon, lat, 25)`.  On success push a signal and count
it; on failure only `console.warn` fires (collected here as the orphan
coordinate list) — the node is not retained.  The road index is only read
(`findNearest`), never written.  Returns the updated signal list, the loaded
count, and the warned coordinates. -/
noncomputable def loadSignalsFromOSM (ridx : Grid.State) (signals0 : List Signal)
    (elements : List Element) : List Signal × ℕ × List (ℚ × ℚ) :=
  elements.foldl
    (fun (acc : List Signal × ℕ × List (ℚ × ℚ)) e =>
      if eligibleSignal e then
        match Grid.findNearest ridx e.lon e.lat 25 with
        | some road => (acc.1 ++ [mkSignal e.lon e.lat (some road)], acc.2.1 + 1, acc.2.2)
        | none => (acc.1, acc.2.1, acc.2.2 ++ [(e.lon, e.lat)])
      else acc)
    (signals0, 0, [])

end Signals

/-! ## PCI joiner (src/unnamed/part_002)

`Math.random()` is embedded as an explicit stream `rand : ℕ → ℚ` of draws in
`[0, 1)`, consumed left to right in source call order (one synthetic record
draws three: jitter, inspection date, surface).  `Date.now()` and the ISO
date formatting of `getRandomInspectionDate` are embedded as the parameters
`now : ℚ` and `fmtDate : ℚ → String`; no claim inspects the produced string. -/

namespace PCI

/-- The classification-keyed base score of `generateSyntheticPCI`. -/
def basePCI (kind : String) : ℚ :=
  if kind = "trunk" ∨ kind = "primary" then 80
  else if kind = "residential" ∨ kind = "service" then 65
  else 75

/-- `PCIJoiner.getPCICategory(pci)`.  `null`/`undefined` map to `"Unknown"`;
`NaN` fails every `>=` comparison and falls through to `"Poor"`. -/
def getPCICategory (v : JNum) : String :=
  match v with
  | JNum.nullv => "Unknown"
  | JNum.undef => "Unknown"
  | JNum.nan => "Poor"
  | JNum.num q =>
    if q ≥ 80 then "Excellent"
    else if q ≥ 70 then "Good"
    else if q ≥ 60 then "Fair"
    else "Poor"

/-- `getRandomInspectionDate()`: a uniformly drawn timestamp in the last year
(365 days in milliseconds), formatted as a date string. -/
def getRandomInspectionDate (now r : ℚ) (fmtDate : ℚ → String) : String :=
  let oneYearAgo := now - 365 * 24 * 60 * 60 * 1000
  fmtDate (oneYearAgo + r * (now - oneYearAgo))

/-- The record returned by `generateSyntheticPCI` (note its `synthetic: true`
field — `ensureAllRoadsHavePCI` copies every other field onto the road's
metadata but stores this flag under the key `pciSynthetic`). -/
structure SynthPCI where
  pci : ℚ
  condition : String
  lastInspection : String
  surface : String
  synthetic : Bool

/-- `generateSyntheticPCI(road)`: base score by road classification, jitter
`(Math.random() - 0.5) * 20`, clamp to `[40, 95]`, round the pci (JS
`Math.round` is round-half-up, Mathlib's `round`). -/
def generateSyntheticPCI (rand : ℕ → ℚ) (now : ℚ) (fmtDate : ℚ → String)
    (k : ℕ) (road : RoadSegment) : SynthPCI :=
  let base := basePCI road.kind
  let variation := (rand k - 1/2) * 20
  let finalPCI := max 40 (min 95 (base + variation))
  { pci := ((round finalPCI : ℤ) : ℚ)
    condition := getPCICategory (JNum.num finalPCI)
    lastInspection := getRandomInspectionDate now (rand (k + 1)) fmtDate
    surface := if rand (k + 2) > 3/10 then "Asphalt" else "Concrete"
    synthetic := true }

/-- The fill condition of `ensureAllRoadsHavePCI`:
`!road.metadata || road.metadata.pci === null` (strict equality: an
`undefined` pci does not trigger the fill). -/
def needsFill (road : RoadSegment) : Bool :=
  match road.metadata with
  | none => true
  | some m => decide (m.pci = JNum.nullv)

/-- The per-road mutation of `ensureAllRoadsHavePCI`: write the synthetic
fields into `road.metadata` (created when absent), flagging the record with
`pciSynthetic = true`. -/
def fillRoad (sp : SynthPCI) (road : RoadSegment) : RoadSegment :=
  let m0 : Metadata := road.metadata.getD {}
  { road with metadata := some (
    { m0 with
      pci := JNum.num sp.pci
      pciCondition := some sp.condition
      pciLastInspection := some sp.lastInspection
      pciSurface := some sp.surface
      pciSynthetic := some true }) }

/-- `ensureAllRoadsHavePCI(roads)`: fill every road still lacking a pci,
counting the synthetic records generated.  `k` indexes the random stream. -/
def ensureAllRoadsHavePCI (rand : ℕ → ℚ) (now : ℚ) (fmtDate : ℚ → String) :
    List RoadSegment → ℕ → List RoadSegment × ℕ
  | [], _ => ([], 0)
  | road :: rest, k =>
    if needsFill road then
      let road' := fillRoad (generateSyntheticPCI rand now fmtDate k road) road
      let r := ensureAllRoadsHavePCI rand now fmtDate rest (k + 3)
      (road' :: r.1, r.2 + 1)
    else
      let r := ensureAllRoadsHavePCI rand now fmtDate rest k
      (road :: r.1, r.2)

end PCI

/-! ## Query-call embeddings (method calls returning a value and the state)

Each query method of `RoadIndex` is embedded as a call on the receiver state
returning the pair (result, state after the call), translated line by line
from the source body: none of the five methods writes to `this`, so each
returns its receiver unchanged. -/

namespace RTree

/-- The `findNearest` method call. -/
noncomputable def findNearestCall (s : State) (lon lat maxDistanceMeters : ℚ) :
    Option RoadSegment × State :=
  (findNearest s lon lat maxDistanceMeters, s)

/-- The `getRoad` method call. -/
def getRoadCall (s : State) (id : String) : Option RoadSegment × State :=
  (getRoad s id, s)

/-- The `getAllRoads` method call. -/
def getAllRoadsCall (s : State) : List RoadSegment × State :=
  (getAllRoads s, s)

/-- The `getTrafficData` method call. -/
def getTrafficDataCall (s : State) (roadId : String) :
    Option TrafficMetrics × State :=
  (getTrafficData s roadId, s)

/-- The `getStats` method call. -/
def getStatsCall (s : State) : (ℕ × ℕ × ℕ) × State :=
  (getStats s, s)

end RTree

/-! ## Well-formedness of an index state -/

/-- The candidate roads that the scan loop actually visits (the non-`null`
results of `roads.get`). -/
def resolvedRoads (cs : List (Option RoadSegment)) : List RoadSegment :=
  cs.filterMap id

/-- Both endpoints of every sub-segment of the polyline lie inside the
segment's declared bbox `(minLon, minLat, maxLon, maxLat)`.  `fromOSMWay`
establishes this by construction (`fromOSMWay_posInBbox` below). -/
def posInBbox (r : RoadSegment) : Prop :=
  ∀ q ∈ segPairs r.positions,
    r.bbox.1 ≤ q.1 ∧ q.1 ≤ r.bbox.2.2.1 ∧
    r.bbox.2.1 ≤ q.2.1 ∧ q.2.1 ≤ r.bbox.2.2.2 ∧
    r.bbox.1 ≤ q.2.2.1 ∧ q.2.2.1 ≤ r.bbox.2.2.1 ∧
    r.bbox.2.1 ≤ q.2.2.2 ∧ q.2.2.2 ≤ r.bbox.2.2.2

instance (r : RoadSegment) : Decidable (posInBbox r) := by
  unfold posInBbox; infer_instance

/-- Well-formedness of a roadIndex.ts state: every road reachable through the
`roads` map is keyed by its own id, has its polyline inside its bbox, and has
its bbox registered in the RBush under its id (all true of every state built
by `addRoad` from well-formed segments). -/
def RTree.WF (s : RTree.State) : Prop :=
  ∀ id r, mapGet s.roads id = some r →
    r.id = id ∧ posInBbox r ∧
    ∃ it ∈ s.items, it.roadId = id ∧
      it.minX = r.bbox.1 ∧ it.minY = r.bbox.2.1 ∧
      it.maxX = r.bbox.2.2.1 ∧ it.maxY = r.bbox.2.2.2

/-- Agreement of the coarse spatial structure and the auxiliary traffic
store with the primary roads map: every id held by either auxiliary
structure resolves in `roads`. -/
def RTree.ConsistentIds (s : RTree.State) : Prop :=
  (∀ it ∈ s.items, ∃ r, mapGet s.roads it.roadId = some r) ∧
  (∀ p ∈ s.trafficData, ∃ r, mapGet s.roads (Prod.fst p) = some r)

/-- The signals produced by a signal-load pass: one per eligible node whose
25 m nearest-road query succeeds, in element order. -/
noncomputable def signalSuccesses (ridx : Grid.State) (elements : List Element) :
    List Signals.Signal :=
  (elements.filter Signals.eligibleSignal).filterMap
    (fun e => (Grid.findNearest ridx e.lon e.lat 25).map
      (fun road => Signals.mkSignal e.lon e.lat (some road)))

/-- The coordinates warned about by a signal-load pass: the eligible nodes
whose 25 m nearest-road query fails. -/
noncomputable def signalOrphans (ridx : Grid.State) (elements : List Element) :
    List (ℚ × ℚ) :=
  ((elements.filter Signals.eligibleSignal).filter
    (fun e => (Grid.findNearest ridx e.lon e.lat 25).isNone)).map
    (fun e => (e.lon, e.lat))

/-! ## Concrete test fixtures

Hand-built road segments used by the witnesses and counterexamples.  The
`length` field (never consulted by any query) is set to 0. -/

/-- A single horizontal segment from (0,0) to (1,0), passing through the
origin. -/
def roadW1 : RoadSegment :=
  { id := "r1", name := "w1", kind := "residential",
    positions := [0, 0, 1, 0], bbox := (0, 0, 1, 0),
    length := 0, midpoint := (1, 0) }

/-- One-road R-tree index holding `roadW1`. -/
def stateW1 : RTree.State := RTree.addRoad RTree.emptyState roadW1

/-- A horizontal segment at latitude 1/10000° (11.132 m from the origin
under the 111320 m/degree conversion). -/
def roadW2 : RoadSegment :=
  { id := "r2", name := "w2", kind := "residential",
    positions := [0, 1/10000, 1/100, 1/10000], bbox := (0, 1/10000, 1/100, 1/10000),
    length := 0, midpoint := (1/100, 1/10000) }

/-- One-road R-tree index holding `roadW2`. -/
def stateW2 : RTree.State := RTree.addRoad RTree.emptyState roadW2

/-- A long road passing 11.132 m from the query point (1/2000, 1/2000), but
whose midpoint (its second vertex) lies 10 grid cells away. -/
def roadCA : RoadSegment :=
  { id := "A", name := "longRoad", kind := "residential",
    positions := [0, 3/5000, 1/100, 3/5000], bbox := (0, 3/5000, 1/100, 3/5000),
    length := 0, midpoint := (1/100, 3/5000) }

/-- A short road 33.396 m from the same query point, with midpoint in the
query's grid cell. -/
def roadCB : RoadSegment :=
  { id := "B", name := "shortRoad", kind := "residential",
    positions := [1/2000, 1/5000, 3/5000, 1/5000], bbox := (1/2000, 1/5000, 3/5000, 1/5000),
    length := 0, midpoint := (3/5000, 1/5000) }

/-- Grid index with `roadCA` inserted before `roadCB`. -/
def stateCg : Grid.State := Grid.addRoad (Grid.addRoad Grid.emptyState roadCA) roadCB

/-- Tie scenario, first-inserted road: a vertical segment at lon 1/400°,
exactly 1/1000° (111.32 m) from the query point (3/2000, 1/2000); its
midpoint falls in grid cell (2, 0). -/
def roadTA : RoadSegment :=
  { id := "tieA", name := "tieA", kind := "residential",
    positions := [1/400, 9/20000, 1/400, 11/20000],
    bbox := (1/400, 9/20000, 1/400, 11/20000),
    length := 0, midpoint := (1/400, 11/20000) }

/-- Tie scenario, second-inserted road: the mirror segment at lon 1/2000°,
also exactly 1/1000° from the query point; its midpoint falls in grid cell
(0, 0), which the candidate scan visits before cell (2, 0). -/
def roadTB : RoadSegment :=
  { id := "tieB", name := "tieB", kind := "residential",
    positions := [1/2000, 9/20000, 1/2000, 11/20000],
    bbox := (1/2000, 9/20000, 1/2000, 11/20000),
    length := 0, midpoint := (1/2000, 11/20000) }

/-- Grid index with `roadTA` inserted before `roadTB`. -/
def stateTie : Grid.State := Grid.addRoad (Grid.addRoad Grid.emptyState roadTA) roadTB

/-- A road through the origin for the signal-association scenario. -/
def roadNear : RoadSegment :=
  { id := "near", name := "nearRoad", kind := "residential",
    positions := [0, 0, 1/10000, 0], bbox := (0, 0, 1/10000, 0),
    length := 0, midpoint := (1/10000, 0) }

/-- Grid index holding `roadNear`. -/
def stateSig : Grid.State := Grid.addRoad Grid.emptyState roadNear

/-- A traffic-signal node at the origin. -/
def nodeSig : Element :=
  { type := "node", id := "n1",
    tags := some { highway := some "traffic_signals" } }

/-- A syntactically valid way with the given id and x-coordinate. -/
def goodWay (idStr : String) (x : ℚ) : Element :=
  { type := "way", id := idStr,
    tags := some { highway := some "residential" },
    geometry := some [{ lon := x, lat := 0 }, { lon := x, lat := 1 }] }

/-- A malformed way: a single geometry point. -/
def badWay : Element :=
  { type := "way", id := "bad",
    tags := some { highway := some "residential" },
    geometry := some [{ lon := 0, lat := 0 }] }

/-- A batch of 10 ways of which exactly one (`badWay`) is malformed. -/
def batch10 : OSMData :=
  { elements := some [goodWay "w0" 0, goodWay "w1" 1, goodWay "w2" 2,
      goodWay "w3" 3, goodWay "w4" 4, goodWay "w5" 5, goodWay "w6" 6,
      goodWay "w7" 7, goodWay "w8" 8, badWay] }

/-- A way carrying a non-numeric `lanes` tag and a unit-suffixed `maxspeed`. -/
def wayBadLanes : Element :=
  { type := "way", id := "w5",
    tags := some { highway := some "residential", lanes := some "two",
                   maxspeed := some "30 mph" },
    geometry := some [{ lon := 0, lat := 0 }, { lon := 1, lat := 1 }] }

/-- A 3-point way for the midpoint witness. -/
def wayMid : Element :=
  { type := "way", id := "w6",
    tags := some { highway := some "service" },
    geometry := some [{ lon := 0, lat := 0 }, { lon := 5, lat := 7 },
      { lon := 9, lat := 2 }] }

/-- A residential road with a null (unjoined) pci, as built by the
trafficSystem.js constructor. -/
def roadR : RoadSegment :=
  { id := "res", name := "resRoad", kind := "residential",
    positions := [0, 0, 1, 0], bbox := (0, 0, 1, 0),
    length := 0, midpoint := (1, 0),
    metadata := some { pci := JNum.nullv } }

/-- The constant random stream 1/2 (every draw is the midpoint of [0,1)). -/
def rngHalf : ℕ → ℚ := fun _ => 1/2

/-- A trivial date formatter. -/
def fmt0 : ℚ → String := fun _ => ""

/-- An arbitrary traffic-metrics value. -/
def m0 : TrafficMetrics :=
  { currentVolume := 100, forecast1h := 110, forecast4h := 120,
    forecast24h := 90, level := TrafficLevel.MODERATE,
    lastUpdated := "t0", signalCount := 0 }

/-- A way the grid bulk load inserts: eligible and constructible. -/
noncomputable def gridWayLoads (e : Element) : Bool :=
  RTree.eligibleWay e && (Grid.fromOSMWay e).toOption.isSome

/-- A way the grid bulk load warns about: eligible but malformed. -/
noncomputable def gridWayFails (e : Element) : Bool :=
  RTree.eligibleWay e && !(Grid.fromOSMWay e).toOption.isSome

/-- A way the R-tree bulk load inserts. -/
noncomputable def rtreeWayLoads (e : Element) : Bool :=
  RTree.eligibleWay e && (RTree.fromOSMWay e).toOption.isSome

/-- A way the R-tree bulk load warns about. -/
noncomputable def rtreeWayFails (e : Element) : Bool :=
  RTree.eligibleWay e && !(RTree.fromOSMWay e).toOption.isSome

/-! # Theorems -/

theorem mapGet_mapSet {κ α : Type} [DecidableEq κ]
    (m : List (κ × α)) (k k' : κ) (v : α) :
    mapGet (mapSet m k v) k' = if k' = k then some v else mapGet m k' := by
  induction m with
  | nil => simp [mapSet, mapGet]
  | cons hd tl ih =>
    obtain ⟨k₀, v₀⟩ := hd
    by_cases hk : k = k₀
    · subst hk
      by_cases hk' : k' = k <;> simp [mapSet, mapGet, hk']
    · by_cases hk' : k' = k₀
      · subst hk'
        simp [mapSet, mapGet, hk, Ne.symm hk]
      · simp [mapSet, mapGet, hk, hk', ih]

theorem clampQ_eq (p : ℚ) :
    max 0 (min 1 p) = if p < 0 then 0 else if p > 1 then 1 else p := by
  split_ifs with h1 h2
  · rw [max_eq_left]
    exact le_trans (min_le_right _ _) h1.le
  · rw [min_eq_left h2.le, max_eq_right (zero_le_one)]
  · rw [min_eq_right (not_lt.mp h2), max_eq_right (not_lt.mp h1)]

theorem pointToLineDistanceJS_eq (px py x1 y1 x2 y2 : ℚ) :
    pointToLineDistanceJS px py x1 y1 x2 y2 =
      pointToLineDistance px py x1 y1 x2 y2 := by
  simp only [pointToLineDistance, pointToLineDistanceJS, clampQ_eq]


/-! ## The candidate scan loop -/

theorem resolvedRoads_nil : resolvedRoads [] = [] := rfl

theorem resolvedRoads_cons_none (cs : List (Option RoadSegment)) :
    resolvedRoads (none :: cs) = resolvedRoads cs := rfl

theorem resolvedRoads_cons_some (r : RoadSegment) (cs : List (Option RoadSegment)) :
    resolvedRoads (some r :: cs) = r :: resolvedRoads cs := rfl

/-- Characterization of the scan loop: a returned road is either the seed
accumulator (with every candidate at least `best` away), or the first
candidate, in enumeration order, attaining the minimum candidate distance
(every earlier candidate strictly farther, every later one no closer),
that minimum being strictly below the seed `best`. -/
theorem scanRoads_spec (dist : RoadSegment → Option ℝ) :
    ∀ (cs : List (Option RoadSegment)) (best : ℝ) (acc : Option RoadSegment)
      (S : RoadSegment), scanRoads dist cs best acc = some S →
      (acc = some S ∧ ∀ r ∈ resolvedRoads cs, ∀ d, dist r = some d → best ≤ d)
      ∨ (∃ l₁ l₂ dS, resolvedRoads cs = l₁ ++ S :: l₂ ∧ dist S = some dS ∧
          dS < best ∧
          (∀ r ∈ l₁, ∀ d, dist r = some d → dS < d) ∧
          (∀ r ∈ l₂, ∀ d, dist r = some d → dS ≤ d)) := by
  intro cs
  induction cs with
  | nil =>
    intro best acc S h
    left
    refine ⟨h, ?_⟩
    simp [resolvedRoads_nil]
  | cons c cs ih =>
    intro best acc S h
    match c with
    | none =>
      rw [resolvedRoads_cons_none]
      exact ih best acc S h
    | some road =>
      rw [resolvedRoads_cons_some]
      cases hd : dist road with
      | none =>
        simp only [scanRoads, hd] at h
        rcases ih best acc S h with ⟨hacc, hall⟩ | ⟨l₁, l₂, dS, hsplit, hdS, hlt, h₁, h₂⟩
        · left
          refine ⟨hacc, ?_⟩
          intro r hr d hdist
          rcases List.mem_cons.mp hr with rfl | hr'
          · rw [hd] at hdist; exact absurd hdist (by simp)
          · exact hall r hr' d hdist
        · right
          refine ⟨road :: l₁, l₂, dS, by rw [hsplit, List.cons_append], hdS, hlt, ?_, h₂⟩
          intro r hr d hdist
          rcases List.mem_cons.mp hr with rfl | hr'
          · rw [hd] at hdist; exact absurd hdist (by simp)
          · exact h₁ r hr' d hdist
      | some d =>
        by_cases hlt : d < best
        · simp only [scanRoads, hd, if_pos hlt] at h
          rcases ih d (some road) S h with ⟨hacc, hall⟩ | ⟨l₁, l₂, dS, hsplit, hdS, hlt', h₁, h₂⟩
          · right
            obtain rfl : road = S := by injection hacc
            refine ⟨[], resolvedRoads cs, d, by simp, hd, hlt, by simp, ?_⟩
            intro r hr d' hdist
            exact hall r hr d' hdist
          · right
            refine ⟨road :: l₁, l₂, dS, by rw [hsplit, List.cons_append], hdS,
              lt_trans hlt' hlt, ?_, h₂⟩
            intro r hr d' hdist
            rcases List.mem_cons.mp hr with rfl | hr'
            · rw [hd] at hdist
              injection hdist with hdd
              exact hdd ▸ hlt'
            · exact h₁ r hr' d' hdist
        · simp only [scanRoads, hd, if_neg hlt] at h
          rcases ih best acc S h with ⟨hacc, hall⟩ | ⟨l₁, l₂, dS, hsplit, hdS, hlt', h₁, h₂⟩
          · left
            refine ⟨hacc, ?_⟩
            intro r hr d' hdist
            rcases List.mem_cons.mp hr with rfl | hr'
            · rw [hd] at hdist
              injection hdist with hdd
              exact hdd ▸ not_lt.mp hlt
            · exact hall r hr' d' hdist
          · right
            refine ⟨road :: l₁, l₂, dS, by rw [hsplit, List.cons_append], hdS, hlt', ?_, h₂⟩
            intro r hr d' hdist
            rcases List.mem_cons.mp hr with rfl | hr'
            · rw [hd] at hdist
              injection hdist with hdd
              exact hdd ▸ lt_of_lt_of_le hlt' (not_lt.mp hlt)
            · exact h₁ r hr' d' hdist

/-- When every resolvable candidate is at least `best` away, the scan loop
never updates and returns the accumulator. -/
theorem scanRoads_far (dist : RoadSegment → Option ℝ) :
    ∀ (cs : List (Option RoadSegment)) (best : ℝ) (acc : Option RoadSegment),
      (∀ r ∈ resolvedRoads cs, ∀ d, dist r = some d → best ≤ d) →
      scanRoads dist cs best acc = acc := by
  intro cs
  induction cs with
  | nil => intro best acc _; rfl
  | cons c cs ih =>
    intro best acc hall
    match c with
    | none => exact ih best acc (by rw [resolvedRoads_cons_none] at hall; exact hall)
    | some road =>
      rw [resolvedRoads_cons_some] at hall
      cases hd : dist road with
      | none =>
        simp only [scanRoads, hd]
        exact ih best acc (fun r hr => hall r (List.mem_cons_of_mem _ hr))
      | some d =>
        have hbd : best ≤ d := hall road (List.mem_cons_self _ _) d hd
        simp only [scanRoads, hd, if_neg (not_lt.mpr hbd)]
        exact ih best acc (fun r hr => hall r (List.mem_cons_of_mem _ hr))

/-- Once the accumulator holds a road, the scan loop's result is a road. -/
theorem scanRoads_isSome_of_acc (dist : RoadSegment → Option ℝ) :
    ∀ (cs : List (Option RoadSegment)) (best : ℝ) (r : RoadSegment),
      (scanRoads dist cs best (some r)).isSome := by
  intro cs
  induction cs with
  | nil => intro best r; rfl
  | cons c cs ih =>
    intro best r
    match c with
    | none => exact ih best r
    | some road =>
      cases hd : dist road with
      | none => simp only [scanRoads, hd]; exact ih best r
      | some d =>
        by_cases hlt : d < best
        · simp only [scanRoads, hd, if_pos hlt]; exact ih d road
        · simp only [scanRoads, hd, if_neg hlt]; exact ih best r

/-- If some resolvable candidate is strictly within `best`, the scan loop
returns a road. -/
theorem scanRoads_isSome_of_close (dist : RoadSegment → Option ℝ) :
    ∀ (cs : List (Option RoadSegment)) (best : ℝ) (acc : Option RoadSegment)
      (r : RoadSegment) (d : ℝ), r ∈ resolvedRoads cs → dist r = some d →
      d < best → (scanRoads dist cs best acc).isSome := by
  intro cs
  induction cs with
  | nil => intro best acc r d hr; simp [resolvedRoads_nil] at hr
  | cons c cs ih =>
    intro best acc r d hr hdist hlt
    match c with
    | none =>
      rw [resolvedRoads_cons_none] at hr
      exact ih best acc r d hr hdist hlt
    | some road =>
      rw [resolvedRoads_cons_some] at hr
      cases hd : dist road with
      | none =>
        simp only [scanRoads, hd]
        rcases List.mem_cons.mp hr with rfl | hr'
        · rw [hd] at hdist; exact absurd hdist (by simp)
        · exact ih best acc r d hr' hdist hlt
      | some d₀ =>
        by_cases hlt₀ : d₀ < best
        · simp only [scanRoads, hd, if_pos hlt₀]
          exact scanRoads_isSome_of_acc dist cs d₀ road
        · simp only [scanRoads, hd, if_neg hlt₀]
          rcases List.mem_cons.mp hr with rfl | hr'
          · rw [hd] at hdist
            injection hdist with hdd
            exact absurd (hdd ▸ hlt) hlt₀
          · exact ih best acc r d hr' hdist hlt

/-! ## Geometry lemmas -/

theorem foldl_min_mem {α : Type} [LinearOrder α] (ds : List α) :
    ∀ d : α, ds.foldl min d ∈ d :: ds := by
  induction ds with
  | nil => intro d; simp
  | cons e ds ih =>
    intro d
    have h := ih (min d e)
    rcases List.mem_cons.mp h with h' | h'
    · rcases min_choice d e with hm | hm
      · rw [List.foldl_cons]
        rw [h', hm]
        exact List.mem_cons_self _ _
      · rw [List.foldl_cons]
        rw [h', hm]
        exact List.mem_cons_of_mem _ (List.mem_cons_self _ _)
    · rw [List.foldl_cons]
      exact List.mem_cons_of_mem _ (List.mem_cons_of_mem _ h')

theorem foldl_min_le {α : Type} [LinearOrder α] (ds : List α) :
    ∀ d x : α, x ∈ d :: ds → ds.foldl min d ≤ x := by
  induction ds with
  | nil =>
    intro d x hx
    rcases List.mem_cons.mp hx with rfl | h
    · exact le_refl _
    · simp at h
  | cons e ds ih =>
    intro d x hx
    rw [List.foldl_cons]
    have hmin : (min d e) ∈ (min d e) :: ds := List.mem_cons_self _ _
    rcases List.mem_cons.mp hx with rfl | h
    · exact le_trans (ih (min x e) (min x e) hmin) (min_le_left _ _)
    · rcases List.mem_cons.mp h with rfl | h'
      · exact le_trans (ih (min d x) (min d x) hmin) (min_le_right _ _)
      · exact ih (min d e) x (List.mem_cons_of_mem _ h')

/-- `pointToLineDistance` is the Euclidean distance to some point `(xx, yy)`
lying (coordinatewise) between the sub-segment's endpoints. -/
theorem pointToLineDistance_eq_sqrt (px py x1 y1 x2 y2 : ℚ) :
    ∃ xx yy : ℚ,
      min x1 x2 ≤ xx ∧ xx ≤ max x1 x2 ∧ min y1 y2 ≤ yy ∧ yy ≤ max y1 y2 ∧
      pointToLineDistance px py x1 y1 x2 y2 =
        Real.sqrt (((px - xx) * (px - xx) + (py - yy) * (py - yy) : ℚ) : ℝ) := by
  by_cases h0 : (x2 - x1) * (x2 - x1) + (y2 - y1) * (y2 - y1) = 0
  · have hx : x2 = x1 := by nlinarith [sq_nonneg (x2 - x1), sq_nonneg (y2 - y1)]
    have hy : y2 = y1 := by nlinarith [sq_nonneg (x2 - x1), sq_nonneg (y2 - y1)]
    refine ⟨x1, y1, ?_, ?_, ?_, ?_, ?_⟩
    · rw [hx]; simp
    · rw [hx]; simp
    · rw [hy]; simp
    · rw [hy]; simp
    · simp [pointToLineDistance, h0]
  · set t : ℚ := (((px - x1) * (x2 - x1) + (py - y1) * (y2 - y1)) /
      ((x2 - x1) * (x2 - x1) + (y2 - y1) * (y2 - y1))) with ht
    set tc : ℚ := (if t < 0 then 0 else if t > 1 then 1 else t) with htc
    have ht0 : 0 ≤ tc := by
      rw [htc]; split_ifs with h1 h2
      · exact le_refl 0
      · exact zero_le_one
      · exact not_lt.mp h1
    have ht1 : tc ≤ 1 := by
      rw [htc]; split_ifs with h1 h2
      · exact zero_le_one
      · exact le_refl 1
      · exact not_lt.mp h2
    refine ⟨x1 + tc * (x2 - x1), y1 + tc * (y2 - y1), ?_, ?_, ?_, ?_, ?_⟩
    · rcases le_total x1 x2 with hc | hc
      · calc min x1 x2 ≤ x1 := min_le_left _ _
          _ ≤ x1 + tc * (x2 - x1) := by nlinarith
      · calc min x1 x2 ≤ x2 := min_le_right _ _
          _ ≤ x1 + tc * (x2 - x1) := by nlinarith
    · rcases le_total x1 x2 with hc | hc
      · calc x1 + tc * (x2 - x1) ≤ x2 := by nlinarith
          _ ≤ max x1 x2 := le_max_right _ _
      · calc x1 + tc * (x2 - x1) ≤ x1 := by nlinarith
          _ ≤ max x1 x2 := le_max_left _ _
    · rcases le_total y1 y2 with hc | hc
      · calc min y1 y2 ≤ y1 := min_le_left _ _
          _ ≤ y1 + tc * (y2 - y1) := by nlinarith
      · calc min y1 y2 ≤ y2 := min_le_right _ _
          _ ≤ y1 + tc * (y2 - y1) := by nlinarith
    · rcases le_total y1 y2 with hc | hc
      · calc y1 + tc * (y2 - y1) ≤ y2 := by nlinarith
          _ ≤ max y1 y2 := le_max_right _ _
      · calc y1 + tc * (y2 - y1) ≤ y1 := by nlinarith
          _ ≤ max y1 y2 := le_max_left _ _
    · simp only [pointToLineDistance, h0, if_false]

/-- The distance to a point dominates each coordinate offset. -/
theorem sqrt_sum_sq_lt (a b c : ℚ)
    (h : Real.sqrt (((a * a + b * b : ℚ)) : ℝ) < (c : ℝ)) : |a| < c ∧ |b| < c := by
  have ha : ((|a| : ℚ) : ℝ) ≤ Real.sqrt (((a * a + b * b : ℚ)) : ℝ) := by
    have h1 : ((a : ℝ)) * a ≤ ((a * a + b * b : ℚ) : ℝ) := by
      push_cast
      nlinarith [mul_self_nonneg (b : ℝ)]
    calc ((|a| : ℚ) : ℝ) = |(a : ℝ)| := by push_cast; ring
      _ = Real.sqrt ((a : ℝ) * a) := (Real.sqrt_mul_self_eq_abs _).symm
      _ ≤ _ := Real.sqrt_le_sqrt h1
  have hb : ((|b| : ℚ) : ℝ) ≤ Real.sqrt (((a * a + b * b : ℚ)) : ℝ) := by
    have h1 : ((b : ℝ)) * b ≤ ((a * a + b * b : ℚ) : ℝ) := by
      push_cast
      nlinarith [mul_self_nonneg (a : ℝ)]
    calc ((|b| : ℚ) : ℝ) = |(b : ℝ)| := by push_cast; ring
      _ = Real.sqrt ((b : ℝ) * b) := (Real.sqrt_mul_self_eq_abs _).symm
      _ ≤ _ := Real.sqrt_le_sqrt h1
  constructor
  · exact_mod_cast lt_of_le_of_lt ha h
  · exact_mod_cast lt_of_le_of_lt hb h

theorem mem_resolvedRoads_map {α : Type} (g : α → Option RoadSegment)
    (l : List α) (r : RoadSegment) :
    r ∈ resolvedRoads (l.map g) ↔ ∃ c ∈ l, g c = some r := by
  simp [resolvedRoads, List.filterMap_map, List.mem_filterMap, Function.comp]

/-- Completeness of the RBush candidate retrieval: a road whose true distance
to the query point is below the radius has its bbox item overlapping the
expanded search box. -/
theorem distance_lt_intersects (lon lat R : ℚ) (r : RoadSegment)
    (hbb : posInBbox r) (d : ℝ)
    (hd : distanceToRoad lon lat r = some d) (hlt : d < (R : ℝ))
    (it : RTree.RTreeItem)
    (h1 : it.minX = r.bbox.1) (h2 : it.minY = r.bbox.2.1)
    (h3 : it.maxX = r.bbox.2.2.1) (h4 : it.maxY = r.bbox.2.2.2) :
    RTree.intersects
      { minX := lon - R / 111320, minY := lat - R / 111320,
        maxX := lon + R / 111320, maxY := lat + R / 111320 } it = true := by
  cases hL : (segPairs r.positions).map
      (fun q => pointToLineDistance lon lat q.1 q.2.1 q.2.2.1 q.2.2.2) with
  | nil =>
    rw [distanceToRoad, hL] at hd
    exact absurd hd (by simp)
  | cons d0 ds =>
    rw [distanceToRoad, hL] at hd
    have hdm : ds.foldl min d0 * 111320 = d := by injection hd
    have hmem : ds.foldl min d0 ∈ d0 :: ds := foldl_min_mem ds d0
    rw [← hL] at hmem
    obtain ⟨q, hq, hfq⟩ := List.mem_map.mp hmem
    have hmlt : ds.foldl min d0 < ((R / 111320 : ℚ) : ℝ) := by
      have h111 : (0 : ℝ) < 111320 := by norm_num
      rw [← hdm] at hlt
      push_cast
      rw [lt_div_iff₀ h111]
      exact hlt
    obtain ⟨xx, yy, hxx1, hxx2, hyy1, hyy2, heq⟩ :=
      pointToLineDistance_eq_sqrt lon lat q.1 q.2.1 q.2.2.1 q.2.2.2
    rw [heq] at hfq
    rw [← hfq] at hmlt
    obtain ⟨habsx, habsy⟩ := sqrt_sum_sq_lt _ _ _ hmlt
    obtain ⟨hax1, hax2⟩ := abs_lt.mp habsx
    obtain ⟨hay1, hay2⟩ := abs_lt.mp habsy
    obtain ⟨hb1, hb2, hb3, hb4, hb5, hb6, hb7, hb8⟩ := hbb q hq
    have hxxlo : r.bbox.1 ≤ xx := le_trans (le_min hb1 hb5) hxx1
    have hxxhi : xx ≤ r.bbox.2.2.1 := le_trans hxx2 (max_le hb2 hb6)
    have hyylo : r.bbox.2.1 ≤ yy := le_trans (le_min hb3 hb7) hyy1
    have hyyhi : yy ≤ r.bbox.2.2.2 := le_trans hyy2 (max_le hb4 hb8)
    simp only [RTree.intersects, h1, h2, h3, h4, Bool.and_eq_true,
      decide_eq_true_eq, ge_iff_le]
    refine ⟨⟨⟨?_, ?_⟩, ?_⟩, ?_⟩
    · linarith
    · linarith
    · linarith
    · linarith

/-- C1 helper: conclusion of the nearest-road contract for the R-tree index. -/
theorem rtree_findNearest_min (s : RTree.State) (lon lat R : ℚ)
    (hWF : RTree.WF s) (S : RoadSegment)
    (hfind : RTree.findNearest s lon lat R = some S) :
    ∃ dS, distanceToRoad lon lat S = some dS ∧ dS < (R : ℝ) ∧
      (∃ idS, mapGet s.roads idS = some S) ∧
      ∀ id r, mapGet s.roads id = some r →
        ∀ d, distanceToRoad lon lat r = some d → dS ≤ d := by
  rw [RTree.findNearest] at hfind
  set searchBbox : RTree.SearchBox :=
    { minX := lon - R / 111320, minY := lat - R / 111320,
      maxX := lon + R / 111320, maxY := lat + R / 111320 } with hbox
  by_cases hempty : (s.items.filter (RTree.intersects searchBbox)).isEmpty
  · rw [if_pos hempty] at hfind
    exact absurd hfind (by simp)
  · rw [if_neg hempty] at hfind
    rcases scanRoads_spec (distanceToRoad lon lat) _ _ _ _ hfind with
      ⟨hacc, _⟩ | ⟨l₁, l₂, dS, hsplit, hdS, hlt, hl₁, hl₂⟩
    · exact absurd hacc (by simp)
    · refine ⟨dS, hdS, hlt, ?_, ?_⟩
      · have hS : S ∈ resolvedRoads ((s.items.filter
            (RTree.intersects searchBbox)).map (fun c => mapGet s.roads c.roadId)) := by
          rw [hsplit]
          exact List.mem_append.mpr (Or.inr (List.mem_cons_self _ _))
        obtain ⟨c, _, hc⟩ := (mem_resolvedRoads_map _ _ _).mp hS
        exact ⟨c.roadId, hc⟩
      · intro id r hlook d hdist
        by_contra hcon
        have hdlt : d < dS := lt_of_not_le hcon
        have hdR : d < (R : ℝ) := lt_trans hdlt hlt
        obtain ⟨hid, hpos, it, hitmem, hitid, hit1, hit2, hit3, hit4⟩ := hWF id r hlook
        have hint : RTree.intersects searchBbox it = true :=
          distance_lt_intersects lon lat R r hpos d hdist hdR it hit1 hit2 hit3 hit4
        have hcand : it ∈ s.items.filter (RTree.intersects searchBbox) :=
          List.mem_filter.mpr ⟨hitmem, hint⟩
        have hr : r ∈ resolvedRoads ((s.items.filter
            (RTree.intersects searchBbox)).map (fun c => mapGet s.roads c.roadId)) := by
          refine (mem_resolvedRoads_map _ _ _).mpr ⟨it, hcand, ?_⟩
          rw [hitid]
          exact hlook
        rw [hsplit] at hr
        rcases List.mem_append.mp hr with hr1 | hr2
        · exact absurd (hl₁ r hr1 d hdist) (not_lt.mpr (le_of_lt hdlt))
        · rcases List.mem_cons.mp hr2 with rfl | hr3
          · rw [hdist] at hdS
            injection hdS with hdd
            exact hcon (le_of_eq hdd.symm)
          · exact absurd (hl₂ r hr3 d hdist) (not_le.mpr hdlt)

/-- C1 (amended): for the R-tree implementation (roadIndex.ts), whenever
`findNearest` returns a segment `S` at radius `R > 0` over a well-formed
index, the true point-to-polyline distance of `S` (minimum over consecutive
sub-segments of the projection-and-clamp distance, converted to meters) is
strictly below `R`, `S` is an indexed road, and no indexed segment has a
strictly smaller true distance — the result agrees with a brute-force linear
scan.  (The grid implementation fails this contract; see the
counterexample.) -/
theorem C1_rtree_nearest_min (s : RTree.State) (lon lat R : ℚ)
    (hWF : RTree.WF s) (hR : 0 < R) (S : RoadSegment)
    (hfind : RTree.findNearest s lon lat R = some S) :
    ∃ dS, distanceToRoad lon lat S = some dS ∧ dS < (R : ℝ) ∧
      (∃ idS, mapGet s.roads idS = some S) ∧
      ∀ id r, mapGet s.roads id = some r →
        ∀ d, distanceToRoad lon lat r = some d → dS ≤ d :=
  rtree_findNearest_min s lon lat R hWF S hfind

/-- C2: over a well-formed R-tree index (roadIndex.ts), `findNearest` returns
`null` exactly when every indexed segment's true distance is at least the
radius — in particular on the empty index, and for a query point exactly at
distance `R` from the nearest segment; conversely at any true distance
strictly below `R` a segment is returned.  The embedding is a total function:
no input throws. -/
theorem C2_rtree_none_iff_far (s : RTree.State) (lon lat R : ℚ)
    (hWF : RTree.WF s) :
    RTree.findNearest s lon lat R = none ↔
      (∀ id r, mapGet s.roads id = some r →
        ∀ d, distanceToRoad lon lat r = some d → (R : ℝ) ≤ d) := by
  rw [RTree.findNearest]
  set searchBbox : RTree.SearchBox :=
    { minX := lon - R / 111320, minY := lat - R / 111320,
      maxX := lon + R / 111320, maxY := lat + R / 111320 } with hbox
  constructor
  · intro hnone id r hlook d hdist
    by_contra hcon
    have hdR : d < (R : ℝ) := lt_of_not_le hcon
    obtain ⟨hid, hpos, it, hitmem, hitid, hit1, hit2, hit3, hit4⟩ := hWF id r hlook
    have hint : RTree.intersects searchBbox it = true :=
      distance_lt_intersects lon lat R r hpos d hdist hdR it hit1 hit2 hit3 hit4
    have hcand : it ∈ s.items.filter (RTree.intersects searchBbox) :=
      List.mem_filter.mpr ⟨hitmem, hint⟩
    have hne : ¬ (s.items.filter (RTree.intersects searchBbox)).isEmpty = true := by
      intro habs
      rw [List.isEmpty_iff] at habs
      rw [habs] at hcand
      simp at hcand
    rw [if_neg hne] at hnone
    have hr : r ∈ resolvedRoads ((s.items.filter
        (RTree.intersects searchBbox)).map (fun c => mapGet s.roads c.roadId)) := by
      refine (mem_resolvedRoads_map _ _ _).mpr ⟨it, hcand, ?_⟩
      rw [hitid]
      exact hlook
    have hsome := scanRoads_isSome_of_close (distanceToRoad lon lat) _
      ((R : ℝ)) none r d hr hdist hdR
    rw [hnone] at hsome
    simp at hsome
  · intro hall
    by_cases hempty : (s.items.filter (RTree.intersects searchBbox)).isEmpty
    · rw [if_pos hempty]
    · rw [if_neg hempty]
      apply scanRoads_far
      intro r hr d hdist
      obtain ⟨c, hc, hlook⟩ := (mem_resolvedRoads_map _ _ _).mp hr
      exact hall c.roadId r hlook d hdist

/-! ## Concrete evaluations -/

theorem sqrt_1e8 : Real.sqrt 100000000 = 10000 := by
  rw [show (100000000 : ℝ) = 10000 ^ 2 by norm_num, Real.sqrt_sq (by norm_num)]

theorem sqrt_1e6 : Real.sqrt 1000000 = 1000 := by
  rw [show (1000000 : ℝ) = 1000 ^ 2 by norm_num, Real.sqrt_sq (by norm_num)]

theorem sqrt_nine : Real.sqrt 9 = 3 := by
  rw [show (9 : ℝ) = 3 ^ 2 by norm_num, Real.sqrt_sq (by norm_num)]

theorem candsCg : Grid.candidates stateCg (1/2000) (1/2000) = [some roadCB] := by
  simp only [Grid.candidates, Grid.offsets, Grid.getGridKey, Grid.gridSize,
    stateCg, Grid.addRoad, Grid.emptyState, roadCA, roadCB, mapGet, mapSet]
  norm_num [mapGet, Prod.ext_iff]
  decide

theorem candsTie : Grid.candidates stateTie (3/2000) (1/2000) =
    [some roadTB, some roadTA] := by
  simp only [Grid.candidates, Grid.offsets, Grid.getGridKey, Grid.gridSize,
    stateTie, Grid.addRoad, Grid.emptyState, roadTA, roadTB, mapGet, mapSet]
  norm_num [mapGet, Prod.ext_iff]
  decide

theorem distCA : Grid.distanceToRoadJS (1/2000) (1/2000) roadCA =
    some (((2783/250 : ℚ)) : ℝ) := by
  rw [Grid.distanceToRoadJS]
  simp only [roadCA, segPairs, List.map]
  rw [pointToLineDistanceJS]
  norm_num [sqrt_1e8]

theorem distCB : Grid.distanceToRoadJS (1/2000) (1/2000) roadCB =
    some (((8349/250 : ℚ)) : ℝ) := by
  rw [Grid.distanceToRoadJS]
  simp only [roadCB, segPairs, List.map]
  rw [pointToLineDistanceJS]
  norm_num [sqrt_1e8, sqrt_nine]

theorem distTA : Grid.distanceToRoadJS (3/2000) (1/2000) roadTA =
    some (((2783/25 : ℚ)) : ℝ) := by
  rw [Grid.distanceToRoadJS]
  simp only [roadTA, segPairs, List.map]
  rw [pointToLineDistanceJS]
  norm_num [sqrt_1e6]

theorem distTB : Grid.distanceToRoadJS (3/2000) (1/2000) roadTB =
    some (((2783/25 : ℚ)) : ℝ) := by
  rw [Grid.distanceToRoadJS]
  simp only [roadTB, segPairs, List.map]
  rw [pointToLineDistanceJS]
  norm_num [sqrt_1e6]

theorem findCg : Grid.findNearest stateCg (1/2000) (1/2000) 50 = some roadCB := by
  rw [Grid.findNearest, candsCg]
  simp only [List.isEmpty_cons, if_false, Bool.false_eq_true, scanRoads, distCB]
  norm_num [scanRoads]

theorem findTie : Grid.findNearest stateTie (3/2000) (1/2000) 150 = some roadTB := by
  rw [Grid.findNearest, candsTie]
  simp only [List.isEmpty_cons, if_false, Bool.false_eq_true, scanRoads, distTB]
  norm_num [scanRoads, distTA]

theorem distW1 : distanceToRoad 0 0 roadW1 = some 0 := by
  rw [distanceToRoad]
  simp only [roadW1, segPairs, List.map]
  rw [pointToLineDistance]
  norm_num

theorem distW2 : distanceToRoad 0 0 roadW2 = some (((2783/250 : ℚ)) : ℝ) := by
  rw [distanceToRoad]
  simp only [roadW2, segPairs, List.map]
  rw [pointToLineDistance]
  norm_num [sqrt_1e8]

theorem findW1 : RTree.findNearest stateW1 0 0 30 = some roadW1 := by
  rw [RTree.findNearest]
  simp only [stateW1, RTree.addRoad, RTree.emptyState, roadW1, List.nil_append,
    List.filter, RTree.intersects]
  norm_num [mapGet, mapSet, scanRoads]
  have hd := distW1
  simp only [roadW1] at hd
  rw [hd]
  norm_num

theorem posW1 : posInBbox roadW1 := by decide

theorem posW2 : posInBbox roadW2 := by
  intro q hq
  simp only [roadW2, segPairs] at hq
  simp only [List.mem_singleton] at hq
  subst hq
  norm_num [roadW2]

theorem wf_addRoad_empty (road : RoadSegment) (hpos : posInBbox road) :
    RTree.WF (RTree.addRoad RTree.emptyState road) := by
  intro id r h
  simp only [RTree.addRoad, RTree.emptyState, mapGet, mapSet] at h
  by_cases hidq : id = road.id
  · rw [if_pos hidq] at h
    injection h with h'
    subst hidq
    refine ⟨by rw [← h'], by rw [← h']; exact hpos, ?_⟩
    refine ⟨{ minX := road.bbox.1, minY := road.bbox.2.1, maxX := road.bbox.2.2.1,
              maxY := road.bbox.2.2.2, roadId := road.id }, ?_, rfl, ?_, ?_, ?_, ?_⟩
    · simp [RTree.addRoad, RTree.emptyState]
    all_goals rw [← h']
  · rw [if_neg hidq] at h
    exact absurd h (by simp)

/-- Witness for C1: on a one-road R-tree index whose road passes through the
query point, `findNearest` returns that road and the theorem's conclusion
holds with every hypothesis discharged concretely. -/
theorem C1_witness :
    RTree.WF stateW1 ∧ (0 : ℚ) < 30 ∧
    RTree.findNearest stateW1 0 0 30 = some roadW1 ∧
    (∃ dS, distanceToRoad 0 0 roadW1 = some dS ∧ dS < ((30 : ℚ) : ℝ) ∧
      (∃ idS, mapGet stateW1.roads idS = some roadW1) ∧
      ∀ id r, mapGet stateW1.roads id = some r →
        ∀ d, distanceToRoad 0 0 r = some d → dS ≤ d) :=
  have hwf : RTree.WF stateW1 := wf_addRoad_empty roadW1 posW1
  ⟨hwf, by norm_num, findW1,
    C1_rtree_nearest_min stateW1 0 0 30 hwf (by norm_num) roadW1 findW1⟩

/-- C1 counterexample: on the grid implementation, the index `stateCg` holds
`roadCA` (true distance 11.132 m from the query, within the 50 m radius) and
`roadCB` (33.396 m), yet `findNearest` returns `roadCB`, because `roadCA`'s
midpoint lies 10 grid cells away and the 5×5 candidate ring never sees it —
so the grid result disagrees with a brute-force scan and a strictly closer
inserted segment exists. -/
theorem C1_grid_counterexample :
    Grid.findNearest stateCg (1/2000) (1/2000) 50 = some roadCB ∧
    mapGet stateCg.roads "A" = some roadCA ∧
    Grid.distanceToRoadJS (1/2000) (1/2000) roadCA = some (((2783/250 : ℚ)) : ℝ) ∧
    Grid.distanceToRoadJS (1/2000) (1/2000) roadCB = some (((8349/250 : ℚ)) : ℝ) ∧
    (((2783/250 : ℚ)) : ℝ) < ((50 : ℚ) : ℝ) ∧
    (((2783/250 : ℚ)) : ℝ) < (((8349/250 : ℚ)) : ℝ) ∧
    roadCA ≠ roadCB := by
  refine ⟨findCg, ?_, distCA, distCB, by norm_num, by norm_num, ?_⟩
  · simp [stateCg, Grid.addRoad, Grid.emptyState, mapSet, mapGet, roadCA, roadCB]
  · intro h
    have := congrArg RoadSegment.id h
    simp [roadCA, roadCB] at this

/-- C3 (amended): in the grid implementation, when `findNearest` returns a
segment `S` it is the first candidate, in the grid's 5×5 cell enumeration
order, attaining the minimal candidate distance (strictly below the radius):
every earlier candidate is strictly farther, every later one no closer.
Equal-distance ties therefore resolve to the earlier candidate in cell-scan
order — which is insertion order only when the tied midpoints share a grid
cell, not in general (see the counterexample). -/
theorem C3_grid_tiebreak_first_candidate (s : Grid.State) (lon lat R : ℚ)
    (S : RoadSegment) (hfind : Grid.findNearest s lon lat R = some S) :
    ∃ l₁ l₂ dS, resolvedRoads (Grid.candidates s lon lat) = l₁ ++ S :: l₂ ∧
      Grid.distanceToRoadJS lon lat S = some dS ∧ dS < (R : ℝ) ∧
      (∀ r ∈ l₁, ∀ d, Grid.distanceToRoadJS lon lat r = some d → dS < d) ∧
      (∀ r ∈ l₂, ∀ d, Grid.distanceToRoadJS lon lat r = some d → dS ≤ d) := by
  rw [Grid.findNearest] at hfind
  by_cases hempty : (Grid.candidates s lon lat).isEmpty
  · rw [if_pos hempty] at hfind
    exact absurd hfind (by simp)
  · rw [if_neg hempty] at hfind
    rcases scanRoads_spec (Grid.distanceToRoadJS lon lat) _ _ _ _ hfind with
      ⟨hacc, _⟩ | ⟨l₁, l₂, dS, hsplit, hdS, hlt, h₁, h₂⟩
    · exact absurd hacc (by simp)
    · exact ⟨l₁, l₂, dS, hsplit, hdS, hlt, h₁, h₂⟩

/-- Witness for C3: the tie state returns `roadTB`, and the first-candidate
characterization holds there with all hypotheses discharged. -/
theorem C3_witness :
    Grid.findNearest stateTie (3/2000) (1/2000) 150 = some roadTB ∧
    (∃ l₁ l₂ dS, resolvedRoads (Grid.candidates stateTie (3/2000) (1/2000)) =
        l₁ ++ roadTB :: l₂ ∧
      Grid.distanceToRoadJS (3/2000) (1/2000) roadTB = some dS ∧
      dS < ((150 : ℚ) : ℝ) ∧
      (∀ r ∈ l₁, ∀ d, Grid.distanceToRoadJS (3/2000) (1/2000) r = some d → dS < d) ∧
      (∀ r ∈ l₂, ∀ d, Grid.distanceToRoadJS (3/2000) (1/2000) r = some d → dS ≤ d)) :=
  ⟨findTie, C3_grid_tiebreak_first_candidate stateTie (3/2000) (1/2000) 150 roadTB findTie⟩

/-- C3 counterexample: two segments at exactly equal true distance
(111.32 m < 150 m) from the query; `roadTA` was inserted first, but the
grid's `findNearest` returns the later-inserted `roadTB`, because `roadTB`'s
midpoint cell is visited earlier in the 5×5 scan — the claimed
earlier-inserted tie-break does not hold. -/
theorem C3_tie_counterexample :
    Grid.findNearest stateTie (3/2000) (1/2000) 150 = some roadTB ∧
    mapGet stateTie.roads "tieA" = some roadTA ∧
    Grid.distanceToRoadJS (3/2000) (1/2000) roadTA = some (((2783/25 : ℚ)) : ℝ) ∧
    Grid.distanceToRoadJS (3/2000) (1/2000) roadTB = some (((2783/25 : ℚ)) : ℝ) ∧
    (((2783/25 : ℚ)) : ℝ) < ((150 : ℚ) : ℝ) ∧
    roadTB ≠ roadTA := by
  refine ⟨findTie, ?_, distTA, distTB, by norm_num, ?_⟩
  · simp [stateTie, Grid.addRoad, Grid.emptyState, mapSet, mapGet, roadTA, roadTB]
  · intro h
    have := congrArg RoadSegment.id h
    simp [roadTA, roadTB] at this

/-- Witness for C2: boundary case — `roadW2` sits at true distance exactly
11.132 m (= 2783/250) from the origin, and with radius exactly 2783/250 m
`findNearest` returns `null` (a point exactly at distance R is excluded). -/
theorem C2_witness_boundary :
    RTree.WF stateW2 ∧ RTree.findNearest stateW2 0 0 (2783/250) = none := by
  have hwf : RTree.WF stateW2 := wf_addRoad_empty roadW2 posW2
  refine ⟨hwf, (C2_rtree_none_iff_far stateW2 0 0 (2783/250) hwf).mpr ?_⟩
  intro id r h
  simp only [stateW2, RTree.addRoad, RTree.emptyState, mapGet, mapSet] at h
  by_cases hid : id = roadW2.id
  · rw [if_pos hid] at h
    injection h with h'
    subst h'
    intro d hd
    rw [distW2] at hd
    injection hd with hd'
    rw [← hd']
  · rw [if_neg hid] at h
    exact absurd h (by simp)

/-! ## Midpoint and tag parsing (`fromOSMWay`) -/

theorem flatMap_length (geom : List GeoPoint) :
    (geom.flatMap (fun pt => [pt.lon, pt.lat])).length = 2 * geom.length := by
  induction geom with
  | nil => rfl
  | cons p gs ih =>
    simp only [List.flatMap_cons, List.length_append, List.length_cons, ih]
    simp
    ring

theorem flatMap_get_even (geom : List GeoPoint) :
    ∀ i, (geom.flatMap (fun pt => [pt.lon, pt.lat])).get? (2 * i) =
      (geom.get? i).map GeoPoint.lon := by
  induction geom with
  | nil => intro i; simp
  | cons p gs ih =>
    intro i
    cases i with
    | zero => simp
    | succ j =>
      have h2 : 2 * (j + 1) = 2 * j + 1 + 1 := by ring
      rw [h2]
      simp only [List.flatMap_cons, List.cons_append, List.get?_cons_succ]
      simpa using ih j

theorem flatMap_get_odd (geom : List GeoPoint) :
    ∀ i, (geom.flatMap (fun pt => [pt.lon, pt.lat])).get? (2 * i + 1) =
      (geom.get? i).map GeoPoint.lat := by
  induction geom with
  | nil => intro i; simp
  | cons p gs ih =>
    intro i
    cases i with
    | zero => simp
    | succ j =>
      have h2 : 2 * (j + 1) + 1 = 2 * j + 1 + 1 + 1 := by ring
      rw [h2]
      simp only [List.flatMap_cons, List.cons_append, List.get?_cons_succ]
      simpa using ih j

/-- C6: for every way with at least 2 geometry points, both implementations
of `fromOSMWay` succeed and set the segment's `midpoint` to the input
coordinate pair at vertex index `⌊n/2⌋` (vertex-count midpoint): the source
index `floor(positions.length / 4) * 2` over the flat array equals flat
position `2⌊n/2⌋`, i.e. vertex `⌊n/2⌋`. -/
theorem C6_midpoint_vertex_index (way : Element) (geom : List GeoPoint)
    (hg : way.geometry = some geom) (h2 : 2 ≤ geom.length) :
    ∃ segT segJ pt, RTree.fromOSMWay way = Except.ok segT ∧
      Grid.fromOSMWay way = Except.ok segJ ∧
      geom.get? (geom.length / 2) = some pt ∧
      segT.midpoint = (pt.lon, pt.lat) ∧ segJ.midpoint = (pt.lon, pt.lat) := by
  obtain ⟨p0, rest1, rfl⟩ : ∃ p0 rest1, geom = p0 :: rest1 := by
    cases geom with
    | nil => simp at h2
    | cons a l => exact ⟨a, l, rfl⟩
  obtain ⟨p1, rest, rfl⟩ : ∃ p1 rest, rest1 = p1 :: rest := by
    cases rest1 with
    | nil => simp at h2
    | cons a l => exact ⟨a, l, rfl⟩
  obtain ⟨pt, hpt⟩ : ∃ pt, (p0 :: p1 :: rest).get? ((p0 :: p1 :: rest).length / 2) = some pt := by
    cases hq : (p0 :: p1 :: rest).get? ((p0 :: p1 :: rest).length / 2) with
    | none =>
      rw [List.get?_eq_none] at hq
      simp only [List.length_cons] at hq
      omega
    | some pt => exact ⟨pt, rfl⟩
  have hlen : ((p0 :: p1 :: rest).flatMap (fun pt => [pt.lon, pt.lat])).length =
      2 * (p0 :: p1 :: rest).length := flatMap_length _
  have hmididx : ((p0 :: p1 :: rest).flatMap (fun pt => [pt.lon, pt.lat])).length / 4 * 2 =
      2 * ((p0 :: p1 :: rest).length / 2) := by
    rw [hlen]; omega
  have hgete : ((p0 :: p1 :: rest).flatMap (fun pt => [pt.lon, pt.lat])).getD
      (((p0 :: p1 :: rest).flatMap (fun pt => [pt.lon, pt.lat])).length / 4 * 2) 0 = pt.lon := by
    rw [hmididx]
    simp only [List.getD]
    rw [flatMap_get_even, hpt]
    rfl
  have hgeto : ((p0 :: p1 :: rest).flatMap (fun pt => [pt.lon, pt.lat])).getD
      (((p0 :: p1 :: rest).flatMap (fun pt => [pt.lon, pt.lat])).length / 4 * 2 + 1) 0 = pt.lat := by
    rw [hmididx]
    simp only [List.getD]
    rw [flatMap_get_odd, hpt]
    rfl
  cases hT : RTree.fromOSMWay way with
  | error e =>
    rw [RTree.fromOSMWay, hg] at hT
    simp at hT
  | ok segT =>
    cases hJ : Grid.fromOSMWay way with
    | error e =>
      rw [Grid.fromOSMWay, hg] at hJ
      simp at hJ
    | ok segJ =>
      refine ⟨segT, segJ, pt, rfl, rfl, hpt, ?_, ?_⟩
      · rw [RTree.fromOSMWay, hg] at hT
        simp only [] at hT
        injection hT with h'
        rw [← h']
        exact Prod.ext hgete hgeto
      · rw [Grid.fromOSMWay, hg] at hJ
        simp only [] at hJ
        injection hJ with h'
        rw [← h']
        exact Prod.ext hgete hgeto

/-- Witness for C6: a 3-point way; the midpoint is the vertex at index
`⌊3/2⌋ = 1`, namely (5, 7). -/
theorem C6_witness :
    wayMid.geometry = some [{ lon := 0, lat := 0 }, { lon := 5, lat := 7 },
      { lon := 9, lat := 2 }] ∧
    (∃ segT segJ pt, RTree.fromOSMWay wayMid = Except.ok segT ∧
      Grid.fromOSMWay wayMid = Except.ok segJ ∧
      ([{ lon := 0, lat := 0 }, { lon := 5, lat := 7 },
        { lon := 9, lat := 2 }] : List GeoPoint).get?
        (([{ lon := 0, lat := 0 }, { lon := 5, lat := 7 },
          { lon := 9, lat := 2 }] : List GeoPoint).length / 2) = some pt ∧
      segT.midpoint = (pt.lon, pt.lat) ∧ segJ.midpoint = (pt.lon, pt.lat)) :=
  ⟨rfl, C6_midpoint_vertex_index wayMid _ rfl (by norm_num)⟩

theorem lanesField_spec (t : Tags) :
    ((t.lanes = none ∨ t.lanes = some "") → lanesField t = JNum.undef) ∧
    (∀ str, t.lanes = some str → str ≠ "" → lanesField t = parseIntJS str) := by
  constructor
  · rintro (h | h) <;> simp [lanesField, truthyStr, h]
  · intro str h hne
    simp [lanesField, truthyStr, h, hne]

theorem maxspeedField_spec (t : Tags) :
    ((t.maxspeed = none ∨ t.maxspeed = some "") → maxspeedField t = JNum.undef) ∧
    (∀ str, t.maxspeed = some str → str ≠ "" →
      maxspeedField t = parseIntJS (stripNonDigits str)) := by
  constructor
  · rintro (h | h) <;> simp [maxspeedField, truthyStr, h]
  · intro str h hne
    simp [maxspeedField, truthyStr, h, hne]

/-- C5 (amended): road-segment construction never aborts on malformed tags:
for every way with valid geometry both `fromOSMWay` implementations succeed;
a missing or empty lane-count or speed-limit tag leaves the field unset
(`undefined`); speed-limit units are stripped before numeric normalization;
but a present, non-empty tag is handed to `parseInt`, so a value with no
leading digits yields `NaN`, not "unset" (see the counterexample). -/
theorem C5_tag_parsing (way : Element) (geom : List GeoPoint)
    (hg : way.geometry = some geom) (h2 : 2 ≤ geom.length) :
    ∃ segT segJ mT mJ, RTree.fromOSMWay way = Except.ok segT ∧
      Grid.fromOSMWay way = Except.ok segJ ∧
      segT.metadata = some mT ∧ segJ.metadata = some mJ ∧
      mJ.lanes = mT.lanes ∧ mJ.maxspeed = mT.maxspeed ∧
      (way.tags = none → mT.lanes = JNum.undef ∧ mT.maxspeed = JNum.undef) ∧
      ∀ t, way.tags = some t →
        ((t.lanes = none ∨ t.lanes = some "") → mT.lanes = JNum.undef) ∧
        (∀ str, t.lanes = some str → str ≠ "" → mT.lanes = parseIntJS str) ∧
        ((t.maxspeed = none ∨ t.maxspeed = some "") → mT.maxspeed = JNum.undef) ∧
        (∀ str, t.maxspeed = some str → str ≠ "" →
          mT.maxspeed = parseIntJS (stripNonDigits str)) := by
  obtain ⟨p0, rest1, rfl⟩ : ∃ p0 rest1, geom = p0 :: rest1 := by
    cases geom with
    | nil => simp at h2
    | cons a l => exact ⟨a, l, rfl⟩
  obtain ⟨p1, rest, rfl⟩ : ∃ p1 rest, rest1 = p1 :: rest := by
    cases rest1 with
    | nil => simp at h2
    | cons a l => exact ⟨a, l, rfl⟩
  cases hT : RTree.fromOSMWay way with
  | error e =>
    rw [RTree.fromOSMWay, hg] at hT
    simp at hT
  | ok segT =>
    cases hJ : Grid.fromOSMWay way with
    | error e =>
      rw [Grid.fromOSMWay, hg] at hJ
      simp at hJ
    | ok segJ =>
      have hredT := hT
      rw [RTree.fromOSMWay, hg] at hredT
      simp only [] at hredT
      injection hredT with hT'
      have hredJ := hJ
      rw [Grid.fromOSMWay, hg] at hredJ
      simp only [] at hredJ
      injection hredJ with hJ'
      refine ⟨segT, segJ,
        { lanes := lanesField (way.tags.getD {}),
          maxspeed := maxspeedField (way.tags.getD {}),
          surface := (way.tags.getD {}).surface },
        { lanes := lanesField (way.tags.getD {}),
          maxspeed := maxspeedField (way.tags.getD {}),
          surface := (way.tags.getD {}).surface, pci := JNum.nullv },
        rfl, rfl, ?_, ?_, rfl, rfl, ?_, ?_⟩
      · rw [← hT']
      · rw [← hJ']
      · intro h
        rw [h]
        exact ⟨rfl, rfl⟩
      · intro t ht
        rw [ht]
        exact ⟨(lanesField_spec t).1, (lanesField_spec t).2,
          (maxspeedField_spec t).1, (maxspeedField_spec t).2⟩

/-- Witness for C5: the amended claim discharged on `wayBadLanes`
(`lanes: "two"`, `maxspeed: "30 mph"`). -/
theorem C5_witness :
    wayBadLanes.geometry = some [{ lon := 0, lat := 0 }, { lon := 1, lat := 1 }] ∧
    (∃ segT segJ mT mJ, RTree.fromOSMWay wayBadLanes = Except.ok segT ∧
      Grid.fromOSMWay wayBadLanes = Except.ok segJ ∧
      segT.metadata = some mT ∧ segJ.metadata = some mJ ∧
      mJ.lanes = mT.lanes ∧ mJ.maxspeed = mT.maxspeed ∧
      (wayBadLanes.tags = none → mT.lanes = JNum.undef ∧ mT.maxspeed = JNum.undef) ∧
      ∀ t, wayBadLanes.tags = some t →
        ((t.lanes = none ∨ t.lanes = some "") → mT.lanes = JNum.undef) ∧
        (∀ str, t.lanes = some str → str ≠ "" → mT.lanes = parseIntJS str) ∧
        ((t.maxspeed = none ∨ t.maxspeed = some "") → mT.maxspeed = JNum.undef) ∧
        (∀ str, t.maxspeed = some str → str ≠ "" →
          mT.maxspeed = parseIntJS (stripNonDigits str))) :=
  ⟨rfl, C5_tag_parsing wayBadLanes _ rfl (by norm_num)⟩

/-- C5 counterexample: a way whose `lanes` tag is the non-numeric string
"two" constructs successfully but with `metadata.lanes = NaN` — not "unset"
— in both implementations (the unit-suffixed `maxspeed` "30 mph" is
stripped to 30, the true part of the claim). -/
theorem C5_nan_counterexample :
    ∃ segT mT segJ mJ, RTree.fromOSMWay wayBadLanes = Except.ok segT ∧
      segT.metadata = some mT ∧ mT.lanes = JNum.nan ∧ mT.lanes ≠ JNum.undef ∧
      mT.maxspeed = JNum.num 30 ∧
      Grid.fromOSMWay wayBadLanes = Except.ok segJ ∧
      segJ.metadata = some mJ ∧ mJ.lanes = JNum.nan := by
  cases hT : RTree.fromOSMWay wayBadLanes with
  | error e =>
    have hred := hT
    rw [RTree.fromOSMWay] at hred
    simp only [wayBadLanes] at hred
    simp at hred
  | ok segT =>
    cases hJ : Grid.fromOSMWay wayBadLanes with
    | error e =>
      have hred := hJ
      rw [Grid.fromOSMWay] at hred
      simp only [wayBadLanes] at hred
      simp at hred
    | ok segJ =>
      have hredT := hT
      rw [RTree.fromOSMWay] at hredT
      simp only [wayBadLanes] at hredT
      injection hredT with hT'
      have hredJ := hJ
      rw [Grid.fromOSMWay] at hredJ
      simp only [wayBadLanes] at hredJ
      injection hredJ with hJ'
      have hmT : segT.metadata = some { lanes := JNum.nan, maxspeed := JNum.num 30 } := by
        rw [← hT']
        decide
      have hmJ : segJ.metadata =
          some { lanes := JNum.nan, maxspeed := JNum.num 30, pci := JNum.nullv } := by
        rw [← hJ']
        decide
      exact ⟨segT, { lanes := JNum.nan, maxspeed := JNum.num 30 }, segJ,
        { lanes := JNum.nan, maxspeed := JNum.num 30, pci := JNum.nullv },
        rfl, hmT, rfl, by decide, rfl, rfl, hmJ, rfl⟩

/-! ## Synthetic PCI fill -/

theorem round_clamp_bounds (x : ℚ) :
    40 ≤ ((round (max 40 (min 95 x)) : ℤ) : ℚ) ∧
    ((round (max 40 (min 95 x)) : ℤ) : ℚ) ≤ 95 := by
  have h1 : (40 : ℚ) ≤ max 40 (min 95 x) := le_max_left _ _
  have h2 : max 40 (min 95 x) ≤ 95 := max_le (by norm_num) (min_le_left _ _)
  rw [round_eq]
  constructor
  · have h : (40 : ℤ) ≤ ⌊max 40 (min 95 x) + 1/2⌋ := by
      calc (40 : ℤ) = ⌊(40 : ℚ) + 1/2⌋ := by norm_num
        _ ≤ _ := Int.floor_le_floor (by linarith)
    exact_mod_cast h
  · have h : ⌊max 40 (min 95 x) + 1/2⌋ ≤ (95 : ℤ) := by
      calc ⌊max 40 (min 95 x) + 1/2⌋ ≤ ⌊(95 : ℚ) + 1/2⌋ := Int.floor_le_floor (by linarith)
        _ = 95 := by norm_num
    exact_mod_cast h

/-- C7 (amended): with the random draws idealised as a stream in [0, 1), the
synthetic-fill pass preserves the road list's length, counts exactly the
roads it fills, leaves every road that already has a pci value unchanged,
and assigns every road whose pci is still null a value
`round(clamp 40 95 (base(kind) + (r − 1/2)·20))` — classification-keyed base
plus jitter within ±10 — which always lands in [40, 95]; the record is
flagged with `metadata.pciSynthetic = true` (the source stores the flag
under `pciSynthetic`, not `synthetic` as the claim states — see the
counterexample). -/
theorem C7_synthetic_fill (rand : ℕ → ℚ) (now : ℚ) (fmtDate : ℚ → String)
    (hrand : ∀ i, 0 ≤ rand i ∧ rand i < 1) :
    ∀ (roads : List RoadSegment) (k : ℕ),
      (PCI.ensureAllRoadsHavePCI rand now fmtDate roads k).1.length = roads.length ∧
      (PCI.ensureAllRoadsHavePCI rand now fmtDate roads k).2 =
        (roads.filter PCI.needsFill).length ∧
      ∀ i road, roads.get? i = some road →
        ∃ road', (PCI.ensureAllRoadsHavePCI rand now fmtDate roads k).1.get? i = some road' ∧
          (PCI.needsFill road = false → road' = road) ∧
          (PCI.needsFill road = true →
            ∃ m p r, road'.metadata = some m ∧ m.pci = JNum.num p ∧
              40 ≤ p ∧ p ≤ 95 ∧ m.pciSynthetic = some true ∧
              0 ≤ r ∧ r < 1 ∧
              p = ((round (max 40 (min 95 (PCI.basePCI road.kind + (r - 1/2) * 20))) : ℤ) : ℚ)) := by
  intro roads
  induction roads with
  | nil =>
    intro k
    refine ⟨rfl, rfl, ?_⟩
    intro i road h
    simp at h
  | cons road rest ih =>
    intro k
    by_cases hf : PCI.needsFill road
    · have hstep : PCI.ensureAllRoadsHavePCI rand now fmtDate (road :: rest) k =
          (PCI.fillRoad (PCI.generateSyntheticPCI rand now fmtDate k road) road ::
            (PCI.ensureAllRoadsHavePCI rand now fmtDate rest (k + 3)).1,
           (PCI.ensureAllRoadsHavePCI rand now fmtDate rest (k + 3)).2 + 1) := by
        simp [PCI.ensureAllRoadsHavePCI, hf]
      obtain ⟨ih1, ih2, ih3⟩ := ih (k + 3)
      rw [hstep]
      refine ⟨by simp [ih1], by simp [List.filter_cons, hf, ih2], ?_⟩
      intro i r hi
      cases i with
      | zero =>
        simp only [List.get?_cons_zero] at hi ⊢
        injection hi with hi'
        subst hi'
        refine ⟨_, rfl, ?_, ?_⟩
        · intro hq
          rw [hq] at hf
          exact absurd hf (by simp)
        · intro _
          exact ⟨_, _, rand k, rfl, rfl, (round_clamp_bounds _).1, (round_clamp_bounds _).2,
            rfl, (hrand k).1, (hrand k).2, rfl⟩
      | succ j =>
        simp only [List.get?_cons_succ] at hi ⊢
        exact ih3 j r hi
    · have hstep : PCI.ensureAllRoadsHavePCI rand now fmtDate (road :: rest) k =
          (road :: (PCI.ensureAllRoadsHavePCI rand now fmtDate rest k).1,
           (PCI.ensureAllRoadsHavePCI rand now fmtDate rest k).2) := by
        simp [PCI.ensureAllRoadsHavePCI, hf]
      obtain ⟨ih1, ih2, ih3⟩ := ih k
      rw [hstep]
      refine ⟨by simp [ih1], ?_, ?_⟩
      · have hf' : PCI.needsFill road = false := by
          revert hf
          cases PCI.needsFill road <;> simp
        simp [List.filter_cons, hf', ih2]
      · intro i r hi
        cases i with
        | zero =>
          simp only [List.get?_cons_zero] at hi ⊢
          injection hi with hi'
          subst hi'
          refine ⟨road, rfl, fun _ => rfl, ?_⟩
          intro hq
          exact absurd hq hf
        | succ j =>
          simp only [List.get?_cons_succ] at hi ⊢
          exact ih3 j r hi

/-- Witness for C7: the amended claim discharged on a single residential
road with null pci and the constant random stream 1/2. -/
theorem C7_witness :
    (∀ i : ℕ, 0 ≤ rngHalf i ∧ rngHalf i < 1) ∧
    ((PCI.ensureAllRoadsHavePCI rngHalf 0 fmt0 [roadR] 0).1.length = [roadR].length ∧
     (PCI.ensureAllRoadsHavePCI rngHalf 0 fmt0 [roadR] 0).2 =
       ([roadR].filter PCI.needsFill).length ∧
     ∀ i road, [roadR].get? i = some road →
       ∃ road', (PCI.ensureAllRoadsHavePCI rngHalf 0 fmt0 [roadR] 0).1.get? i = some road' ∧
         (PCI.needsFill road = false → road' = road) ∧
         (PCI.needsFill road = true →
           ∃ m p r, road'.metadata = some m ∧ m.pci = JNum.num p ∧
             40 ≤ p ∧ p ≤ 95 ∧ m.pciSynthetic = some true ∧
             0 ≤ r ∧ r < 1 ∧
             p = ((round (max 40 (min 95 (PCI.basePCI road.kind + (r - 1/2) * 20))) : ℤ) : ℚ))) :=
  have hr : ∀ i : ℕ, 0 ≤ rngHalf i ∧ rngHalf i < 1 := fun _ => by norm_num [rngHalf]
  ⟨hr, C7_synthetic_fill rngHalf 0 fmt0 hr [roadR] 0⟩

theorem basePCI_res : PCI.basePCI "residential" = 65 := by decide

theorem genR_eval : PCI.generateSyntheticPCI rngHalf 0 fmt0 0 roadR =
    { pci := 65, condition := "Fair", lastInspection := "", surface := "Asphalt",
      synthetic := true } := by
  rw [PCI.generateSyntheticPCI]
  simp only [rngHalf, roadR, basePCI_res, PCI.getPCICategory,
    PCI.getRandomInspectionDate, fmt0]
  norm_num [round_eq]

/-- C7 counterexample: after the synthetic fill of a residential road with
null pci, the metadata carries `pciSynthetic = true` and a pci of 65, but
the field the claim names — `metadata.synthetic` — remains undefined: the
`synthetic: true` flag of the generated record is never copied onto the
road's metadata under that key. -/
theorem C7_synthetic_flag_counterexample :
    ∃ road' m, (PCI.ensureAllRoadsHavePCI rngHalf 0 fmt0 [roadR] 0).1 = [road'] ∧
      (PCI.ensureAllRoadsHavePCI rngHalf 0 fmt0 [roadR] 0).2 = 1 ∧
      road'.metadata = some m ∧ m.pci = JNum.num 65 ∧
      m.pciSynthetic = some true ∧ m.synthetic = none ∧ ¬ m.synthetic = some true := by
  have hfill : PCI.needsFill roadR = true := rfl
  have hens : PCI.ensureAllRoadsHavePCI rngHalf 0 fmt0 [roadR] 0 =
      ([PCI.fillRoad
          { pci := 65, condition := "Fair", lastInspection := "",
            surface := "Asphalt", synthetic := true } roadR], 1) := by
    simp [PCI.ensureAllRoadsHavePCI, hfill, genR_eval]
  refine ⟨PCI.fillRoad
      { pci := 65, condition := "Fair", lastInspection := "",
        surface := "Asphalt", synthetic := true } roadR,
    { lanes := JNum.undef, maxspeed := JNum.undef, surface := none,
      pci := JNum.num 65, pciCondition := some "Fair", pciLastInspection := some "",
      pciSurface := some "Asphalt", pciDistance := none,
      pciSynthetic := some true, synthetic := none },
    by rw [hens], by rw [hens], ?_, rfl, rfl, rfl, by simp⟩
  rw [PCI.fillRoad]
  simp [roadR]

/-! ## Signal loading -/

theorem signals_foldl_spec (ridx : Grid.State) :
    ∀ (elements : List Element) (acc : List Signals.Signal × ℕ × List (ℚ × ℚ)),
      elements.foldl
        (fun (acc : List Signals.Signal × ℕ × List (ℚ × ℚ)) e =>
          if Signals.eligibleSignal e then
            match Grid.findNearest ridx e.lon e.lat 25 with
            | some road =>
              (acc.1 ++ [Signals.mkSignal e.lon e.lat (some road)], acc.2.1 + 1, acc.2.2)
            | none => (acc.1, acc.2.1, acc.2.2 ++ [(e.lon, e.lat)])
          else acc) acc =
      (acc.1 ++ signalSuccesses ridx elements,
       acc.2.1 + (signalSuccesses ridx elements).length,
       acc.2.2 ++ signalOrphans ridx elements) := by
  intro elements
  induction elements with
  | nil =>
    intro acc
    simp [signalSuccesses, signalOrphans]
  | cons e es ih =>
    intro acc
    rw [List.foldl_cons]
    by_cases he : Signals.eligibleSignal e
    · cases hn : Grid.findNearest ridx e.lon e.lat 25 with
      | some road =>
        simp only [he, if_true, hn]
        rw [ih]
        simp only [signalSuccesses, signalOrphans, List.filter_cons, he, if_true,
          List.filterMap_cons, hn, Option.map_some]
        simp [Prod.ext_iff, List.append_assoc, hn]
        omega
      | none =>
        simp only [he, if_true, hn]
        rw [ih]
        simp only [signalSuccesses, signalOrphans, List.filter_cons, he, if_true,
          List.filterMap_cons, hn, Option.map_none]
        simp [Prod.ext_iff, List.append_assoc, hn]
    · have he' : Signals.eligibleSignal e = false := by
        revert he
        cases Signals.eligibleSignal e <;> simp
      simp only [he', Bool.false_eq_true, if_false]
      rw [ih]
      simp [signalSuccesses, signalOrphans, List.filter_cons, he']

/-- C8 (amended): signal loading associates each eligible traffic-signal
node to the nearest road within the fixed 25 m radius; on success the
signal record carries the road back-reference (`roadId`, `roadName`) and the
loaded count is incremented; on failure only a warning is emitted (modelled
as the orphan coordinate list) and the signal is NOT retained; only the
loaded count is returned, and the traffic store is never touched — no
`signalCount` is incremented anywhere (the road index is only read). -/
theorem C8_signal_load_spec (ridx : Grid.State) (signals0 : List Signals.Signal)
    (elements : List Element) :
    Signals.loadSignalsFromOSM ridx signals0 elements =
      (signals0 ++ signalSuccesses ridx elements,
       (signalSuccesses ridx elements).length,
       signalOrphans ridx elements) ∧
    (∀ sig ∈ signalSuccesses ridx elements,
      ∃ road, Grid.findNearest ridx sig.lon sig.lat 25 = some road ∧
        sig.roadId = some road.id ∧ sig.roadName = road.name) := by
  constructor
  · rw [Signals.loadSignalsFromOSM, signals_foldl_spec]
    norm_num
  · intro sig hsig
    simp only [signalSuccesses, List.mem_filterMap] at hsig
    obtain ⟨e, he, hmap⟩ := hsig
    cases hn : Grid.findNearest ridx e.lon e.lat 25 with
    | none =>
      rw [hn] at hmap
      exact Option.noConfusion hmap
    | some road =>
      rw [hn] at hmap
      injection hmap with hm
      subst hm
      exact ⟨road, hn, rfl, rfl⟩

theorem candsSig : Grid.candidates stateSig 0 0 = [some roadNear] := by
  simp only [Grid.candidates, Grid.offsets, Grid.getGridKey, Grid.gridSize,
    stateSig, Grid.addRoad, Grid.emptyState, roadNear, mapGet, mapSet]
  norm_num [mapGet, Prod.ext_iff]

theorem distNear : Grid.distanceToRoadJS 0 0 roadNear = some 0 := by
  rw [Grid.distanceToRoadJS]
  simp only [roadNear, segPairs, List.map]
  rw [pointToLineDistanceJS]
  norm_num

theorem findSig : Grid.findNearest stateSig 0 0 25 = some roadNear := by
  rw [Grid.findNearest, candsSig]
  simp only [List.isEmpty_cons, if_false, Bool.false_eq_true, scanRoads, distNear]
  norm_num [scanRoads]

/-- C8 counterexample: a signal at the origin associates successfully to
`roadNear` (back-reference recorded, count 1), yet after loading, the
Traffic Metrics Store has no entry for that road at all — its
`signalCount` was not created or incremented, contradicting the claim. -/
theorem C8_signalCount_counterexample :
    Grid.findNearest stateSig 0 0 25 = some roadNear ∧
    Signals.loadSignalsFromOSM stateSig [] [nodeSig] =
      ([Signals.mkSignal 0 0 (some roadNear)], 1, []) ∧
    (Signals.mkSignal 0 0 (some roadNear)).roadId = some "near" ∧
    Grid.getTrafficData stateSig "near" = none := by
  have helig : Signals.eligibleSignal nodeSig = true := by decide
  refine ⟨findSig, ?_, rfl, rfl⟩
  rw [Signals.loadSignalsFromOSM]
  simp only [List.foldl_cons, List.foldl_nil, helig, if_true]
  have hlon : nodeSig.lon = 0 := rfl
  have hlat : nodeSig.lat = 0 := rfl
  rw [hlon, hlat, findSig]
  norm_num

/-- Witness for C8: the load characterization applied at the concrete
one-signal scenario. -/
theorem C8_witness :
    Signals.loadSignalsFromOSM stateSig [] [nodeSig] =
      ([] ++ signalSuccesses stateSig [nodeSig],
       (signalSuccesses stateSig [nodeSig]).length,
       signalOrphans stateSig [nodeSig]) ∧
    (∀ sig ∈ signalSuccesses stateSig [nodeSig],
      ∃ road, Grid.findNearest stateSig sig.lon sig.lat 25 = some road ∧
        sig.roadId = some road.id ∧ sig.roadName = road.name) :=
  C8_signal_load_spec stateSig [] [nodeSig]

/-! ## Store-consistency invariants -/

theorem mem_mapSet {κ α : Type} [DecidableEq κ] (p : κ × α) (m : List (κ × α))
    (k : κ) (v : α) : p ∈ mapSet m k v → p = (k, v) ∨ p ∈ m := by
  induction m with
  | nil =>
    intro h
    simp [mapSet] at h
    exact Or.inl h
  | cons hd tl ih =>
    intro h
    obtain ⟨k0, v0⟩ := hd
    by_cases hq : k = k0
    · simp only [mapSet, if_pos hq] at h
      rcases List.mem_cons.mp h with rfl | h'
      · exact Or.inl rfl
      · exact Or.inr (List.mem_cons_of_mem _ h')
    · simp only [mapSet, if_neg hq] at h
      rcases List.mem_cons.mp h with rfl | h'
      · exact Or.inr (List.mem_cons_self _ _)
      · rcases ih h' with h'' | h''
        · exact Or.inl h''
        · exact Or.inr (List.mem_cons_of_mem _ h'')

/-- C9 counterexample: `setTrafficData` performs no existence check, so a
single call with an unknown id creates a traffic-data entry whose id is
absent from the roads map, breaking the agreement between the stores. -/
theorem C9_setTrafficData_unchecked :
    mapGet (RTree.setTrafficData RTree.emptyState "ghost" m0).trafficData "ghost" = some m0 ∧
    mapGet (RTree.setTrafficData RTree.emptyState "ghost" m0).roads "ghost" = none ∧
    ¬ RTree.ConsistentIds (RTree.setTrafficData RTree.emptyState "ghost" m0) := by
  refine ⟨rfl, rfl, ?_⟩
  intro hcon
  obtain ⟨-, h2⟩ := hcon
  obtain ⟨r, hr⟩ := h2 ("ghost", m0) (by
    simp [RTree.setTrafficData, RTree.emptyState, mapSet])
  simp [RTree.setTrafficData, RTree.emptyState, mapGet] at hr

/-- C9 (amended): the coarse spatial structure's ids always resolve in the
roads map across `addRoad` and bulk-load sequences, and `setTrafficData`
preserves store agreement whenever the caller passes an existing road id —
but the operation itself performs no check (see the counterexample), so the
invariant is conditional on callers passing valid ids. -/
theorem C9_invariant_preservation :
    RTree.ConsistentIds RTree.emptyState ∧
    (∀ s seg, RTree.ConsistentIds s → RTree.ConsistentIds (RTree.addRoad s seg)) ∧
    (∀ s id m, RTree.ConsistentIds s → (∃ r, mapGet s.roads id = some r) →
      RTree.ConsistentIds (RTree.setTrafficData s id m)) ∧
    (∀ osm s s' w, RTree.ConsistentIds s →
      RTree.loadFromOSM osm s = Except.ok (s', w) → RTree.ConsistentIds s') := by
  have hadd : ∀ s seg, RTree.ConsistentIds s → RTree.ConsistentIds (RTree.addRoad s seg) := by
    intro s seg ⟨h1, h2⟩
    constructor
    · intro it hit
      simp only [RTree.addRoad, List.mem_append, List.mem_singleton] at hit
      rcases hit with hit | rfl
      · obtain ⟨r, hr⟩ := h1 it hit
        rw [RTree.addRoad]
        by_cases hq : it.roadId = seg.id
        · exact ⟨seg, by rw [mapGet_mapSet, if_pos hq]⟩
        · exact ⟨r, by rw [mapGet_mapSet, if_neg hq]; exact hr⟩
      · exact ⟨seg, by rw [RTree.addRoad, mapGet_mapSet]; simp⟩
    · intro p hp
      obtain ⟨r, hr⟩ := h2 p hp
      rw [RTree.addRoad]
      by_cases hq : p.1 = seg.id
      · exact ⟨seg, by rw [mapGet_mapSet, if_pos hq]⟩
      · exact ⟨r, by rw [mapGet_mapSet, if_neg hq]; exact hr⟩
  refine ⟨⟨by simp [RTree.emptyState], by simp [RTree.emptyState]⟩, hadd, ?_, ?_⟩
  · intro s id m ⟨h1, h2⟩ ⟨r0, hr0⟩
    constructor
    · intro it hit
      exact h1 it hit
    · intro p hp
      simp only [RTree.setTrafficData] at hp
      rcases mem_mapSet p s.trafficData id m hp with rfl | hmem
      · exact ⟨r0, hr0⟩
      · exact h2 p hmem
  · intro osm s s' w hcon hload
    rw [RTree.loadFromOSM] at hload
    cases hel : osm.elements with
    | none => rw [hel] at hload; exact absurd hload (by simp)
    | some elements =>
      rw [hel] at hload
      injection hload with hload'
      have hfold : ∀ (es : List Element) (acc : RTree.State × List String),
          RTree.ConsistentIds acc.1 →
          RTree.ConsistentIds (es.foldl
            (fun (acc : RTree.State × List String) e =>
              if RTree.eligibleWay e then
                match RTree.fromOSMWay e with
                | Except.ok road => (RTree.addRoad acc.1 road, acc.2)
                | Except.error _ => (acc.1, acc.2 ++ [e.id])
              else acc) acc).1 := by
        intro es
        induction es with
        | nil => intro acc h; exact h
        | cons e es ih =>
          intro acc h
          rw [List.foldl_cons]
          by_cases he : RTree.eligibleWay e
          · cases hw : RTree.fromOSMWay e with
            | ok road =>
              simp only [he, if_true, hw]
              exact ih _ (hadd _ _ h)
            | error msg =>
              simp only [he, if_true, hw]
              exact ih _ h
          · have he' : RTree.eligibleWay e = false := by
              revert he
              cases RTree.eligibleWay e <;> simp
            simp only [he', Bool.false_eq_true, if_false]
            exact ih _ h
      have := hfold elements (s, []) hcon
      rw [hload'] at this
      exact this

/-! ## Bulk load -/

theorem grid_load_foldl (es : List Element) :
    ∀ acc : Grid.State × ℕ × List String,
      (es.foldl (fun (acc : Grid.State × ℕ × List String) e =>
          if RTree.eligibleWay e then
            match Grid.fromOSMWay e with
            | Except.ok road => (Grid.addRoad acc.1 road, acc.2.1 + 1, acc.2.2)
            | Except.error _ => (acc.1, acc.2.1, acc.2.2 ++ [e.id])
          else acc) acc).2 =
        (acc.2.1 + (es.filter gridWayLoads).length,
         acc.2.2 ++ (es.filter gridWayFails).map Element.id) := by
  induction es with
  | nil =>
    intro acc
    simp [gridWayLoads, gridWayFails]
  | cons e es ih =>
    intro acc
    rw [List.foldl_cons]
    by_cases he : RTree.eligibleWay e
    · cases hw : Grid.fromOSMWay e with
      | ok road =>
        have hl : gridWayLoads e = true := by simp [gridWayLoads, he, hw, Except.toOption]
        have hf : gridWayFails e = false := by simp [gridWayFails, he, hw, Except.toOption]
        simp only [he, if_true, hw]
        rw [ih]
        simp [List.filter_cons, hl, hf]
        omega
      | error msg =>
        have hl : gridWayLoads e = false := by simp [gridWayLoads, he, hw, Except.toOption]
        have hf : gridWayFails e = true := by simp [gridWayFails, he, hw, Except.toOption]
        simp only [he, if_true, hw]
        rw [ih]
        simp [List.filter_cons, hl, hf]
    · have he' : RTree.eligibleWay e = false := by
        revert he
        cases RTree.eligibleWay e <;> simp
      have hl : gridWayLoads e = false := by simp [gridWayLoads, he']
      have hf : gridWayFails e = false := by simp [gridWayFails, he']
      simp only [he', Bool.false_eq_true, if_false]
      rw [ih]
      simp [List.filter_cons, hl, hf]

theorem rtree_load_foldl (es : List Element) :
    ∀ acc : RTree.State × List String,
      (es.foldl (fun (acc : RTree.State × List String) e =>
          if RTree.eligibleWay e then
            match RTree.fromOSMWay e with
            | Except.ok road => (RTree.addRoad acc.1 road, acc.2)
            | Except.error _ => (acc.1, acc.2 ++ [e.id])
          else acc) acc).2 =
        acc.2 ++ (es.filter rtreeWayFails).map Element.id := by
  induction es with
  | nil =>
    intro acc
    simp [rtreeWayFails]
  | cons e es ih =>
    intro acc
    rw [List.foldl_cons]
    by_cases he : RTree.eligibleWay e
    · cases hw : RTree.fromOSMWay e with
      | ok road =>
        have hf : rtreeWayFails e = false := by
          simp [rtreeWayFails, he, hw, Except.toOption]
        simp only [he, if_true, hw]
        rw [ih]
        simp [List.filter_cons, hf]
      | error msg =>
        have hf : rtreeWayFails e = true := by
          simp [rtreeWayFails, he, hw, Except.toOption]
        simp only [he, if_true, hw]
        rw [ih]
        simp [List.filter_cons, hf]
    · have he' : RTree.eligibleWay e = false := by
        revert he
        cases RTree.eligibleWay e <;> simp
      have hf : rtreeWayFails e = false := by simp [rtreeWayFails, he']
      simp only [he', Bool.false_eq_true, if_false]
      rw [ih]
      simp [List.filter_cons, hf]

theorem exists_ok_pair {α β : Type} (p : α × β) (b : β) (hb : p.2 = b) :
    ∃ a w, (Except.ok p : Except String (α × β)) = Except.ok (a, w) ∧ w = b :=
  ⟨p.1, p.2, by rw [Prod.mk.eta], hb⟩

theorem exists_ok_triple {α β γ : Type} (p : α × β × γ) (n : β) (w : γ)
    (hb : p.2 = (n, w)) :
    ∃ a b c, (Except.ok p : Except String (α × β × γ)) = Except.ok (a, b, c) ∧
      b = n ∧ c = w :=
  ⟨p.1, p.2.1, p.2.2, by rw [Prod.mk.eta],
    congrArg Prod.fst hb, congrArg Prod.snd hb⟩

/-- C4 (evaluation at the failing input): loading the 10-way batch with one
single-point way skips only the malformed way (one warning, id "bad") and
loads the nine well-formed ways in both implementations; the grid
implementation returns the loaded count 9, while the R-tree implementation's
promise resolves with no count at all — its result carries only the updated
index and the warnings (the source computes `roadCount` but never returns
it), and neither implementation computes an aggregate skipped count (the
number skipped is recoverable only as the number of warnings). -/
theorem C4_loadFromOSM_batch_eval :
    (∃ s n w, Grid.loadFromOSM batch10 Grid.emptyState = Except.ok (s, n, w) ∧
      n = 9 ∧ w = ["bad"]) ∧
    (∃ s w, RTree.loadFromOSM batch10 RTree.emptyState = Except.ok (s, w) ∧
      w = ["bad"]) := by
  have hok : ∀ idStr x, gridWayLoads (goodWay idStr x) = true := fun _ _ => rfl
  have hbad : gridWayLoads badWay = false := rfl
  have hokf : ∀ idStr x, gridWayFails (goodWay idStr x) = false := fun _ _ => rfl
  have hbadf : gridWayFails badWay = true := rfl
  have hokr : ∀ idStr x, rtreeWayFails (goodWay idStr x) = false := fun _ _ => rfl
  have hbadr : rtreeWayFails badWay = true := rfl
  constructor
  · rw [Grid.loadFromOSM]
    simp only [batch10]
    have h := grid_load_foldl [goodWay "w0" 0, goodWay "w1" 1, goodWay "w2" 2,
      goodWay "w3" 3, goodWay "w4" 4, goodWay "w5" 5, goodWay "w6" 6,
      goodWay "w7" 7, goodWay "w8" 8, badWay] (Grid.emptyState, 0, [])
    simp only [List.filter_cons, hok, hbad, hokf, hbadf, if_true, if_false,
      Bool.false_eq_true, List.filter_nil, List.length_cons, List.length_nil,
      List.map_cons, List.map_nil, List.nil_append, List.append_nil,
      Nat.zero_add] at h
    exact exists_ok_triple _ 9 ["bad"] h
  · rw [RTree.loadFromOSM]
    simp only [batch10]
    have h := rtree_load_foldl [goodWay "w0" 0, goodWay "w1" 1, goodWay "w2" 2,
      goodWay "w3" 3, goodWay "w4" 4, goodWay "w5" 5, goodWay "w6" 6,
      goodWay "w7" 7, goodWay "w8" 8, badWay] (RTree.emptyState, [])
    simp only [List.filter_cons, hokr, hbadr, if_true, if_false,
      Bool.false_eq_true, List.filter_nil, List.map_cons, List.map_nil,
      List.nil_append] at h
    exact exists_ok_pair _ ["bad"] h

/-- Witness for C9: the preservation statements discharged at a concrete
sequence — empty index, `addRoad roadW1`, then `setTrafficData` with the
existing id "r1". -/
theorem C9_witness :
    RTree.ConsistentIds (RTree.addRoad RTree.emptyState roadW1) ∧
    RTree.ConsistentIds
      (RTree.setTrafficData (RTree.addRoad RTree.emptyState roadW1) "r1" m0) :=
  have hbase : RTree.ConsistentIds RTree.emptyState := C9_invariant_preservation.1
  have hadd : RTree.ConsistentIds (RTree.addRoad RTree.emptyState roadW1) :=
    C9_invariant_preservation.2.1 _ _ hbase
  ⟨hadd, C9_invariant_preservation.2.2.1 _ "r1" m0 hadd
    ⟨roadW1, by simp [RTree.addRoad, RTree.emptyState, mapSet, mapGet, roadW1]⟩⟩

/-! ## Frame properties of the query operations -/

/-- C10: the five query operations of the R-tree index — `findNearest`,
`getRoad`, `getAllRoads`, `getTrafficData`, `getStats` — are pure: each call
returns its receiver state unchanged (none of the method bodies writes to
`this`), and `getAllRoads` returns the values of the roads map as a fresh
snapshot (`Array.from(this.roads.values())`) whose content is fixed at call
time, so mutation of the returned sequence cannot reach the index in the
value semantics of this embedding. -/
theorem C10_queries_pure (s : RTree.State) (lon lat R : ℚ) (id rid : String) :
    (RTree.findNearestCall s lon lat R).2 = s ∧
    (RTree.getRoadCall s id).2 = s ∧
    (RTree.getAllRoadsCall s).2 = s ∧
    (RTree.getTrafficDataCall s rid).2 = s ∧
    (RTree.getStatsCall s).2 = s ∧
    (RTree.getAllRoadsCall s).1 = s.roads.map Prod.snd :=
  ⟨rfl, rfl, rfl, rfl, rfl, rfl⟩

theorem foldl_max_le {α : Type} [LinearOrder α] (ds : List α) :
    ∀ d x : α, x ∈ d :: ds → x ≤ ds.foldl max d := by
  induction ds with
  | nil =>
    intro d x hx
    rcases List.mem_cons.mp hx with rfl | h
    · exact le_refl _
    · simp at h
  | cons e ds ih =>
    intro d x hx
    rw [List.foldl_cons]
    have hmax : (max d e) ∈ (max d e) :: ds := List.mem_cons_self _ _
    rcases List.mem_cons.mp hx with rfl | h
    · exact le_trans (le_max_left _ _) (ih (max x e) (max x e) hmax)
    · rcases List.mem_cons.mp h with rfl | h'
      · exact le_trans (le_max_right _ _) (ih (max d x) (max d x) hmax)
      · exact ih (max d e) x (List.mem_cons_of_mem _ h')

theorem segPairs_get : ∀ (l : List ℚ) (q : ℚ × ℚ × ℚ × ℚ), q ∈ segPairs l →
    ∃ i, l.get? (2 * i) = some q.1 ∧ l.get? (2 * i + 1) = some q.2.1 ∧
      l.get? (2 * i + 2) = some q.2.2.1 ∧ l.get? (2 * i + 3) = some q.2.2.2
  | [], q, hq => by simp [segPairs] at hq
  | [x], q, hq => by simp [segPairs] at hq
  | [x1, y1], q, hq => by simp [segPairs] at hq
  | [x1, y1, x2], q, hq => by simp [segPairs] at hq
  | x1 :: y1 :: x2 :: y2 :: rest, q, hq => by
    simp only [segPairs] at hq
    rcases List.mem_cons.mp hq with rfl | hq'
    · exact ⟨0, rfl, rfl, rfl, rfl⟩
    · obtain ⟨i, h1, h2, h3, h4⟩ := segPairs_get (x2 :: y2 :: rest) q hq'
      have e1 : 2 * (i + 1) = 2 * i + 1 + 1 := by ring
      have e2 : 2 * (i + 1) + 1 = 2 * i + 1 + 1 + 1 := by ring
      have e3 : 2 * (i + 1) + 2 = 2 * i + 2 + 1 + 1 := by ring
      have e4 : 2 * (i + 1) + 3 = 2 * i + 3 + 1 + 1 := by ring
      refine ⟨i + 1, ?_, ?_, ?_, ?_⟩
      · rw [e1, List.get?_cons_succ, List.get?_cons_succ]
        exact h1
      · rw [e2, List.get?_cons_succ, List.get?_cons_succ]
        exact h2
      · rw [e3, List.get?_cons_succ, List.get?_cons_succ]
        exact h3
      · rw [e4, List.get?_cons_succ, List.get?_cons_succ]
        exact h4
termination_by l => l.length

/-- Core of the constructor bbox invariant: every sub-segment endpoint of the
flattened position array lies within the min/max folds that `fromOSMWay`
stores as the bbox. -/
theorem segPairs_flatMap_bounds (p0 p1 : GeoPoint) (rest : List GeoPoint) :
    ∀ q ∈ segPairs ((p0 :: p1 :: rest).flatMap (fun pt => [pt.lon, pt.lat])),
      ((p0 :: p1 :: rest).map GeoPoint.lon).foldl min p0.lon ≤ q.1 ∧
      q.1 ≤ ((p0 :: p1 :: rest).map GeoPoint.lon).foldl max p0.lon ∧
      ((p0 :: p1 :: rest).map GeoPoint.lat).foldl min p0.lat ≤ q.2.1 ∧
      q.2.1 ≤ ((p0 :: p1 :: rest).map GeoPoint.lat).foldl max p0.lat ∧
      ((p0 :: p1 :: rest).map GeoPoint.lon).foldl min p0.lon ≤ q.2.2.1 ∧
      q.2.2.1 ≤ ((p0 :: p1 :: rest).map GeoPoint.lon).foldl max p0.lon ∧
      ((p0 :: p1 :: rest).map GeoPoint.lat).foldl min p0.lat ≤ q.2.2.2 ∧
      q.2.2.2 ≤ ((p0 :: p1 :: rest).map GeoPoint.lat).foldl max p0.lat := by
  intro q hq
  obtain ⟨i, h1, h2, h3, h4⟩ := segPairs_get _ q hq
  rw [flatMap_get_even] at h1
  rw [flatMap_get_odd] at h2
  have h3' : ((p0 :: p1 :: rest).flatMap (fun pt => [pt.lon, pt.lat])).get?
      (2 * (i + 1)) = some q.2.2.1 := by
    rw [show 2 * (i + 1) = 2 * i + 2 by ring]
    exact h3
  rw [flatMap_get_even] at h3'
  have h4' : ((p0 :: p1 :: rest).flatMap (fun pt => [pt.lon, pt.lat])).get?
      (2 * (i + 1) + 1) = some q.2.2.2 := by
    rw [show 2 * (i + 1) + 1 = 2 * i + 3 by ring]
    exact h4
  rw [flatMap_get_odd] at h4'
  have hlon : ∀ (j : ℕ) (x : ℚ),
      ((p0 :: p1 :: rest).get? j).map GeoPoint.lon = some x →
      ((p0 :: p1 :: rest).map GeoPoint.lon).foldl min p0.lon ≤ x ∧
      x ≤ ((p0 :: p1 :: rest).map GeoPoint.lon).foldl max p0.lon := by
    intro j x hx
    cases hgj : (p0 :: p1 :: rest).get? j with
    | none => rw [hgj] at hx; simp at hx
    | some pt =>
      rw [hgj] at hx
      injection hx with hx'
      subst hx'
      have hmem : pt ∈ p0 :: p1 :: rest := List.get?_mem hgj
      have hmem' : pt.lon ∈ (p0 :: p1 :: rest).map GeoPoint.lon :=
        List.mem_map_of_mem _ hmem
      exact ⟨foldl_min_le _ _ _ (List.mem_cons_of_mem _ hmem'),
             foldl_max_le _ _ _ (List.mem_cons_of_mem _ hmem')⟩
  have hlat : ∀ (j : ℕ) (x : ℚ),
      ((p0 :: p1 :: rest).get? j).map GeoPoint.lat = some x →
      ((p0 :: p1 :: rest).map GeoPoint.lat).foldl min p0.lat ≤ x ∧
      x ≤ ((p0 :: p1 :: rest).map GeoPoint.lat).foldl max p0.lat := by
    intro j x hx
    cases hgj : (p0 :: p1 :: rest).get? j with
    | none => rw [hgj] at hx; simp at hx
    | some pt =>
      rw [hgj] at hx
      injection hx with hx'
      subst hx'
      have hmem : pt ∈ p0 :: p1 :: rest := List.get?_mem hgj
      have hmem' : pt.lat ∈ (p0 :: p1 :: rest).map GeoPoint.lat :=
        List.mem_map_of_mem _ hmem
      exact ⟨foldl_min_le _ _ _ (List.mem_cons_of_mem _ hmem'),
             foldl_max_le _ _ _ (List.mem_cons_of_mem _ hmem')⟩
  exact ⟨(hlon i _ h1).1, (hlon i _ h1).2, (hlat i _ h2).1, (hlat i _ h2).2,
    (hlon (i + 1) _ h3').1, (hlon (i + 1) _ h3').2,
    (hlat (i + 1) _ h4').1, (hlat (i + 1) _ h4').2⟩

/-- The roadIndex.ts constructor establishes `posInBbox`: every segment it
returns satisfies the bbox invariant assumed by `RTree.WF`. -/
theorem fromOSMWay_posInBbox (way : Element) (seg : RoadSegment)
    (hT : RTree.fromOSMWay way = Except.ok seg) : posInBbox seg := by
  cases hg : way.geometry with
  | none =>
    rw [RTree.fromOSMWay, hg] at hT
    exact absurd hT (by simp)
  | some geom =>
    cases geom with
    | nil =>
      rw [RTree.fromOSMWay, hg] at hT
      exact absurd hT (by simp)
    | cons p0 rest1 =>
      cases rest1 with
      | nil =>
        rw [RTree.fromOSMWay, hg] at hT
        exact absurd hT (by simp)
      | cons p1 rest =>
        rw [RTree.fromOSMWay, hg] at hT
        simp only [] at hT
        injection hT with h'
        subst h'
        intro q hq
        exact segPairs_flatMap_bounds p0 p1 rest q hq

/-- Likewise for the trafficSystem.js constructor. -/
theorem fromOSMWayJS_posInBbox (way : Element) (seg : RoadSegment)
    (hT : Grid.fromOSMWay way = Except.ok seg) : posInBbox seg := by
  cases hg : way.geometry with
  | none =>
    rw [Grid.fromOSMWay, hg] at hT
    exact absurd hT (by simp)
  | some geom =>
    cases geom with
    | nil =>
      rw [Grid.fromOSMWay, hg] at hT
      exact absurd hT (by simp)
    | cons p0 rest1 =>
      cases rest1 with
      | nil =>
        rw [Grid.fromOSMWay, hg] at hT
        exact absurd hT (by simp)
      | cons p1 rest =>
        rw [Grid.fromOSMWay, hg] at hT
        simp only [] at hT
        injection hT with h'
        subst h'
        intro q hq
        exact segPairs_flatMap_bounds p0 p1 rest q hq

/-- `addRoad` preserves well-formedness: inserting any segment whose polyline
lies in its bbox (as every `fromOSMWay` result does) keeps the index `WF`.
Together with `fromOSMWay_posInBbox` and `wf_addRoad_empty` this shows the
`WF` hypothesis of the nearest-road theorems holds for every index built by
`addRoad`/`loadFromOSM` from OSM ways. -/
theorem WF_addRoad (s : RTree.State) (seg : RoadSegment)
    (hWF : RTree.WF s) (hpos : posInBbox seg) :
    RTree.WF (RTree.addRoad s seg) := by
  intro id r h
  simp only [RTree.addRoad] at h
  rw [mapGet_mapSet] at h
  by_cases hidq : id = seg.id
  · rw [if_pos hidq] at h
    injection h with h'
    subst hidq
    refine ⟨by rw [← h'], by rw [← h']; exact hpos, ?_⟩
    refine ⟨{ minX := seg.bbox.1, minY := seg.bbox.2.1, maxX := seg.bbox.2.2.1,
              maxY := seg.bbox.2.2.2, roadId := seg.id }, ?_, rfl, ?_, ?_, ?_, ?_⟩
    · simp [RTree.addRoad]
    all_goals rw [← h']
  · rw [if_neg hidq] at h
    obtain ⟨h1, h2, it, hit, hrest⟩ := hWF id r h
    exact ⟨h1, h2, it, List.mem_append_left _ hit, hrest⟩
